import Mathlib

/-!
# Verification of the ai-threads thread/thought store

Shallow embedding of the MobX `ThreadsStore` (stores/ThreadsStore.ts) and the
pure parts of `services/ai.ts` of the ai-threads repository, together with
proofs about the selection / garbage-collection state machine.

Modelling conventions:
* `string` ids (uuid values) are modelled as `Nat`; `Date.now()` timestamps and
  freshly drawn uuids are passed to each operation as explicit parameters.
* The JavaScript `Map` objects (`thoughts`, `threadCounts`, `selectedCounts`)
  are modelled as association lists with first-key-wins lookup.
* In-place mutation of an object found inside an array (`thought.selected =
  !thought.selected` after `thoughts.find(...)`) is modelled by updating the
  first matching element of the list.
* Every store operation returns, besides the new store, the list of calls it
  makes to the persistence gateway (`db/index.ts`) and to the AI gateway, in
  program order, so that write-through and ordering claims are statable.
-/

namespace AIThreads

/-- `text.split('\n')` (JS `String.prototype.split` with a one-character
separator), implemented by structural recursion over the characters so that
concrete instances evaluate. -/
def splitLinesAux : List Char → List Char → List String
  | [], acc => [String.mk acc.reverse]
  | c :: rest, acc =>
    if c = '\n' then String.mk acc.reverse :: splitLinesAux rest []
    else splitLinesAux rest (c :: acc)

/-- `text.split('\n')`. -/
def splitLines (text : String) : List String :=
  splitLinesAux text.toList []

/-- JS `String.prototype.trim`: strip leading and trailing whitespace (the
ASCII whitespace characters recognised by `Char.isWhitespace` stand in for
the JS whitespace set). -/
def jsTrim (s : String) : String :=
  String.mk (((s.toList.dropWhile Char.isWhitespace).reverse.dropWhile
    Char.isWhitespace).reverse)

/-- `line.startsWith(c)` for a one-character prefix. -/
def startsWithChar (s : String) (c : Char) : Bool :=
  match s.toList with
  | [] => false
  | d :: _ => d = c

/-- `author` field of a Thought: `'user' | 'ai'` (types/index.ts). -/
inductive Author where
  | user
  | ai
deriving DecidableEq, Repr

/-- A Thought record (types/index.ts).  `order` is a JS number used only with
integer values in the store, modelled as `Int`. -/
structure Thought where
  id : Nat
  threadId : Nat
  author : Author
  text : String
  createdAt : Nat
  selected : Bool
  starred : Bool
  edited : Bool
  order : Int
deriving DecidableEq, Repr

/-- `Thread.stats` (types/index.ts). -/
structure ThreadStats where
  tokensIn : Nat
  tokensOut : Nat
deriving DecidableEq, Repr

/-- A Thread record (types/index.ts). -/
structure Thread where
  id : Nat
  title : String
  createdAt : Nat
  updatedAt : Nat
  pinned : Bool
  threadPrompt : Option String
  generationCount : Nat
  stats : ThreadStats
deriving DecidableEq, Repr

/-- Association-list lookup, modelling `Map.get` (first binding wins; the
update function below keeps keys unique anyway). -/
def getA {α : Type} : List (Nat × α) → Nat → Option α
  | [], _ => none
  | (k', v) :: rest, k => if k' = k then some v else getA rest k

/-- Association-list update, modelling `Map.set`. -/
def setA {α : Type} : List (Nat × α) → Nat → α → List (Nat × α)
  | [], k, v => [(k, v)]
  | (k', v') :: rest, k, v =>
    if k' = k then (k, v) :: rest else (k', v') :: setA rest k v

/-- The observable state of `ThreadsStore` (stores/ThreadsStore.ts).  The
`abortController` field is `AbortController | null`; only its presence is
state that the store branches on, so it is modelled as a `Bool`. -/
structure Store where
  threads : List Thread
  thoughts : List (Nat × List Thought)
  starredThoughts : List Thought
  threadCounts : List (Nat × Nat)
  selectedCounts : List (Nat × Int)
  isGenerating : Bool
  error : Option String
  hasAbortController : Bool
deriving DecidableEq, Repr

/-- Calls made by a store operation to the persistence gateway (db/index.ts)
and to the AI gateway (services/ai.ts), recorded in program order. -/
inductive Effect where
  | saveThread (t : Thread)
  | saveThought (t : Thought)
  | saveThoughts (ts : List Thought)
  | delThought (id : Nat)
  | delThoughts (ids : List Nat)
  | delThread (id : Nat)
  | getStarred
  | aiRequest (context : List Thought) (count : Nat)
deriving DecidableEq, Repr

/-- Update the first element satisfying `p`, modelling in-place mutation of the
object returned by `Array.prototype.find`. -/
def updateFirst {α : Type} (p : α → Bool) (f : α → α) : List α → List α
  | [] => []
  | x :: xs => if p x then f x :: xs else x :: updateFirst p f xs

/-- Remove the first element satisfying `p`, modelling
`arr.splice(arr.findIndex(p), 1)` guarded by `findIndex !== -1`. -/
def removeFirst {α : Type} (p : α → Bool) : List α → List α
  | [] => []
  | x :: xs => if p x then xs else x :: removeFirst p xs

/-- The thread's in-memory thought list, `this.thoughts.get(threadId) || []`. -/
def threadList (s : Store) (threadId : Nat) : List Thought :=
  (getA s.thoughts threadId).getD []

/-- `Math.max(...thoughts.map(t => t.order))` for a non-empty list, `-1` for
the empty list, exactly as computed in `addUserThought` / `generateBatch`. -/
def maxOrder : List Thought → Int
  | [] => -1
  | t :: ts => ts.foldl (fun m u => max m u.order) t.order

/-- `togglePinned(threadId)` (stores/ThreadsStore.ts). -/
def togglePinned (s : Store) (threadId : Nat) (now : Nat) : Store × List Effect :=
  match s.threads.find? (fun t => decide (t.id = threadId)) with
  | none => (s, [])
  | some thread =>
    let upd := fun (t : Thread) => { t with pinned := !t.pinned, updatedAt := now }
    ({ s with threads := updateFirst (fun t => decide (t.id = threadId)) upd s.threads },
     [Effect.saveThread (upd thread)])

/-- `setThreadPrompt(threadId, prompt)` (stores/ThreadsStore.ts). -/
def setThreadPrompt (s : Store) (threadId : Nat) (prompt : Option String) (now : Nat) :
    Store × List Effect :=
  match s.threads.find? (fun t => decide (t.id = threadId)) with
  | none => (s, [])
  | some thread =>
    let upd := fun (t : Thread) => { t with threadPrompt := prompt, updatedAt := now }
    ({ s with threads := updateFirst (fun t => decide (t.id = threadId)) upd s.threads },
     [Effect.saveThread (upd thread)])

/-- `setGenerationCount(threadId, count)` (stores/ThreadsStore.ts). -/
def setGenerationCount (s : Store) (threadId : Nat) (count : Nat) (now : Nat) :
    Store × List Effect :=
  match s.threads.find? (fun t => decide (t.id = threadId)) with
  | none => (s, [])
  | some thread =>
    let upd := fun (t : Thread) => { t with generationCount := count, updatedAt := now }
    ({ s with threads := updateFirst (fun t => decide (t.id = threadId)) upd s.threads },
     [Effect.saveThread (upd thread)])

/-- The Thought built by `addUserThought`: trimmed text, `selected=true`,
`order = max(existing) + 1` (or `0` on an empty thread, via the `-1`
sentinel). -/
def newUserThought (s : Store) (threadId : Nat) (text : String) (newId now : Nat) :
    Thought :=
  { id := newId, threadId := threadId, author := Author.user,
    text := jsTrim text, createdAt := now, selected := true, starred := false,
    edited := false, order := maxOrder (threadList s threadId) + 1 }

/-- `addUserThought(threadId, text)` (stores/ThreadsStore.ts).  `newId` is the
uuid drawn for the new thought and `now` the `Date.now()` value. -/
def addUserThought (s : Store) (threadId : Nat) (text : String) (newId : Nat) (now : Nat) :
    Store × List Effect :=
  let threadThoughts := threadList s threadId
  let thought := newUserThought s threadId text newId now
  let newList := threadThoughts ++ [thought]
  let s1 : Store :=
    { s with
      thoughts := setA s.thoughts threadId newList,
      threadCounts := setA s.threadCounts threadId newList.length,
      selectedCounts :=
        setA s.selectedCounts threadId (((getA s.selectedCounts threadId).getD 0) + 1) }
  match s1.threads.find? (fun t => decide (t.id = threadId)) with
  | none => (s1, [Effect.saveThought thought])
  | some thread =>
    let upd := fun (t : Thread) => { t with updatedAt := now }
    ({ s1 with threads := updateFirst (fun t => decide (t.id = threadId)) upd s1.threads },
     [Effect.saveThought thought, Effect.saveThread (upd thread)])

/-- Flip of the `selected` flag, the in-place mutation performed by
`toggleSelected`. -/
def flipSelected (t : Thought) : Thought :=
  { t with selected := !t.selected }

/-- The candidate test used by `generateBatch`, `pruneUnselected` and
`hasUnselectedCandidates`: `t.author === 'ai' && !t.selected`. -/
def candPred (t : Thought) : Bool :=
  decide (t.author = Author.ai) && !t.selected

/-- The cascade-deletion test of `toggleSelected`: an unselected `ai` thought
with `order` strictly below the newly selected thought's order `k`. -/
def cascadePred (k : Int) (t : Thought) : Bool :=
  !t.selected && decide (t.author = Author.ai) && decide (t.order < k)

/-- `toggleSelected(thoughtId, threadId)` (stores/ThreadsStore.ts): flip the
flag, persist, adjust the selected counter, and — on a false→true flip of an
`ai` thought — delete every unselected `ai` thought of strictly smaller
`order` in the thread. -/
def toggleSelected (s : Store) (thoughtId threadId : Nat) : Store × List Effect :=
  match getA s.thoughts threadId with
  | none => (s, [])
  | some thoughts =>
    match thoughts.find? (fun t => decide (t.id = thoughtId)) with
    | none => (s, [])
    | some thought =>
      let wasSelected := thought.selected
      let flipped := flipSelected thought
      let thoughts1 := updateFirst (fun t => decide (t.id = thoughtId)) flipSelected thoughts
      let delta : Int := if flipped.selected then 1 else -1
      let s1 : Store :=
        { s with
          thoughts := setA s.thoughts threadId thoughts1,
          selectedCounts :=
            setA s.selectedCounts threadId (((getA s.selectedCounts threadId).getD 0) + delta) }
      if !wasSelected && decide (thought.author = Author.ai) then
        let unselectedBefore := thoughts1.filter (cascadePred thought.order)
        if unselectedBefore.length > 0 then
          let idsToDelete := unselectedBefore.map Thought.id
          let filtered := thoughts1.filter (fun t => !idsToDelete.contains t.id)
          ({ s1 with
             thoughts := setA s1.thoughts threadId filtered,
             threadCounts := setA s1.threadCounts threadId filtered.length },
           [Effect.saveThought flipped, Effect.delThoughts idsToDelete])
        else (s1, [Effect.saveThought flipped])
      else (s1, [Effect.saveThought flipped])

/-- `toggleStarred(thoughtId, threadId)` (stores/ThreadsStore.ts).  The final
`loadStarredThoughts()` refresh reads the starred set back from the gateway;
`dbStarred` is the value that read returns. -/
def toggleStarred (s : Store) (thoughtId threadId : Nat) (dbStarred : List Thought) :
    Store × List Effect :=
  match getA s.thoughts threadId with
  | none => (s, [])
  | some thoughts =>
    match thoughts.find? (fun t => decide (t.id = thoughtId)) with
    | none => (s, [])
    | some thought =>
      let flip := fun (t : Thought) => { t with starred := !t.starred }
      let thoughts1 := updateFirst (fun t => decide (t.id = thoughtId)) flip thoughts
      ({ s with
         thoughts := setA s.thoughts threadId thoughts1,
         starredThoughts := dbStarred },
       [Effect.saveThought (flip thought), Effect.getStarred])

/-- `editThought(thoughtId, threadId, newText)` (stores/ThreadsStore.ts). -/
def editThought (s : Store) (thoughtId threadId : Nat) (newText : String) :
    Store × List Effect :=
  match getA s.thoughts threadId with
  | none => (s, [])
  | some thoughts =>
    match thoughts.find? (fun t => decide (t.id = thoughtId)) with
    | none => (s, [])
    | some thought =>
      let upd := fun (t : Thought) => { t with text := jsTrim newText, edited := true }
      let thoughts1 := updateFirst (fun t => decide (t.id = thoughtId)) upd thoughts
      ({ s with thoughts := setA s.thoughts threadId thoughts1 },
       [Effect.saveThought (upd thought)])

/-- `deleteThought(thoughtId, threadId)` (stores/ThreadsStore.ts).  Note the
gateway delete is issued even when the thought is not in the in-memory list. -/
def deleteThought (s : Store) (thoughtId threadId : Nat) : Store × List Effect :=
  match getA s.thoughts threadId with
  | none => (s, [Effect.delThought thoughtId])
  | some thoughts =>
    let wasSelected :=
      match thoughts.find? (fun t => decide (t.id = thoughtId)) with
      | some t => t.selected
      | none => false
    let newList := removeFirst (fun t => decide (t.id = thoughtId)) thoughts
    (({ s with
        thoughts := setA s.thoughts threadId newList,
        threadCounts := setA s.threadCounts threadId newList.length,
        selectedCounts :=
          if wasSelected then
            setA s.selectedCounts threadId
              (max 0 (((getA s.selectedCounts threadId).getD 0) - 1))
          else s.selectedCounts }),
     [Effect.delThought thoughtId])

/-- Outcome of the `generateThoughts` call awaited by `generateBatch`.
`aborted` stands for a rejection whose error has `name === 'AbortError'`; the
code of services/ai.ts never produces it, because `GenerateOptions` declares no
`signal` field and none of its `fetch` calls receives one, so the `signal`
the store puts into the options object is dropped and the request cannot be
aborted. -/
inductive AIResult where
  | ok (texts : List String) (tokensIn tokensOut : Nat)
  | err (msg : String)
  | aborted
deriving DecidableEq, Repr

/-- `cancelGeneration()` (stores/ThreadsStore.ts): if a controller exists,
abort it, drop it, and clear the generating flag; otherwise a no-op. -/
def cancelGeneration (s : Store) : Store :=
  if s.hasAbortController then
    { s with hasAbortController := false, isGenerating := false }
  else s

/-- The part of `generateBatch(threadId, regenerate)` up to and including the
issuing of the AI request (everything before the `await generateThoughts`
suspension point).  Returns the store at the suspension point, the effects
emitted so far, and — when a request was actually issued — the local
variables captured by the coroutine: the looked-up thread and the (possibly
regenerate-filtered) local `thoughts` array. -/
def generateBatchStart (s : Store) (threadId : Nat) (regenerate : Bool)
    (configured : Bool) : Store × List Effect × Option (Thread × List Thought) :=
  if s.isGenerating then (s, [], none)
  else if !configured then
    ({ s with error := some "Please configure API key and model in settings" }, [], none)
  else
    match s.threads.find? (fun t => decide (t.id = threadId)) with
    | none => (s, [], none)
    | some thread =>
      let thoughts0 := threadList s threadId
      let (s1, thoughts1, fx1) :=
        if regenerate then
          let unselectedCandidates := thoughts0.filter candPred
          if unselectedCandidates.length > 0 then
            let idsToDelete := unselectedCandidates.map Thought.id
            let filtered := thoughts0.filter (fun t => !idsToDelete.contains t.id)
            (({ s with
                thoughts := setA s.thoughts threadId filtered,
                threadCounts := setA s.threadCounts threadId filtered.length } : Store),
             filtered, [Effect.delThoughts idsToDelete])
          else (s, thoughts0, ([] : List Effect))
        else (s, thoughts0, ([] : List Effect))
      let selectedThoughts := thoughts1.filter (fun t => t.selected)
      let s2 : Store :=
        { s1 with hasAbortController := true, isGenerating := true, error := none }
      (s2, fx1 ++ [Effect.aiRequest selectedThoughts thread.generationCount], some (thread, thoughts1))

/-- The batch of Thoughts built from the candidate strings returned by the AI
gateway (`result.thoughts.map((text, i) => ...)` in `generateBatch`): fresh
ids, `author=ai, selected=false`, orders continuing after `mo`. -/
def newBatchThoughts (threadId : Nat) (mo : Int) (texts : List String)
    (newIds : Nat → Nat) (now : Nat) : List Thought :=
  texts.enum.map (fun p =>
    { id := newIds p.1, threadId := threadId, author := Author.ai, text := p.2,
      createdAt := now, selected := false, starred := false, edited := false,
      order := mo + 1 + p.1 })

/-- The part of `generateBatch` after the `await generateThoughts` suspension
point (success, error, and abort branches, plus the `finally` that drops the
abort controller).  `thread` and `thoughtsLocal` are the local variables
captured before the await; `newIds i` is the uuid drawn for the `i`-th
candidate and `now` the `Date.now()` value on resumption. -/
def generateBatchFinish (s : Store) (threadId : Nat) (thread : Thread)
    (thoughtsLocal : List Thought) (ai : AIResult) (newIds : Nat → Nat) (now : Nat) :
    Store × List Effect :=
  match ai with
  | AIResult.aborted =>
    ({ s with isGenerating := false, hasAbortController := false }, [])
  | AIResult.err msg =>
    ({ s with error := some msg, isGenerating := false, hasAbortController := false }, [])
  | AIResult.ok texts tin tout =>
    let newThoughts : List Thought :=
      newBatchThoughts threadId (maxOrder thoughtsLocal) texts newIds now
    let updThread : Thread :=
      { thread with
        stats := ⟨thread.stats.tokensIn + tin, thread.stats.tokensOut + tout⟩,
        updatedAt := now }
    let threads1 := updateFirst (fun t => decide (t.id = thread.id))
      (fun t => { t with
        stats := ⟨t.stats.tokensIn + tin, t.stats.tokensOut + tout⟩,
        updatedAt := now }) s.threads
    let currentThoughts := threadList s threadId
    let appended := currentThoughts ++ newThoughts
    (({ s with
        threads := threads1,
        thoughts := setA s.thoughts threadId appended,
        threadCounts := setA s.threadCounts threadId appended.length,
        isGenerating := false, hasAbortController := false } : Store),
     [Effect.saveThoughts newThoughts, Effect.saveThread updThread])

/-- `generateBatch(threadId, regenerate)` run to completion with no other
operation interleaved at the single suspension point: the composition of
`generateBatchStart` and `generateBatchFinish`. -/
def generateBatch (s : Store) (threadId : Nat) (regenerate : Bool) (configured : Bool)
    (ai : AIResult) (newIds : Nat → Nat) (now : Nat) : Store × List Effect :=
  match generateBatchStart s threadId regenerate configured with
  | (s1, fx1, none) => (s1, fx1)
  | (s1, fx1, some (thread, thoughtsLocal)) =>
    let (s2, fx2) := generateBatchFinish s1 threadId thread thoughtsLocal ai newIds now
    (s2, fx1 ++ fx2)

/-- Insert a thought into a list sorted descending by `order`, keeping it
before later-inserted equal keys (stable). -/
def insertDesc (t : Thought) : List Thought → List Thought
  | [] => [t]
  | u :: us => if u.order ≤ t.order then t :: u :: us else u :: insertDesc t us

/-- `arr.slice().sort((a, b) => b.order - a.order)`: a stable sort descending
by `order`. -/
def sortDesc : List Thought → List Thought
  | [] => []
  | t :: ts => insertDesc t (sortDesc ts)

/-- `pruneUnselected(threadId)` (stores/ThreadsStore.ts): among the thread's
`author=ai, selected=false` thoughts sorted descending by `order`, keep the
first 5 and delete the rest. -/
def pruneUnselected (s : Store) (threadId : Nat) : Store × List Effect :=
  match getA s.thoughts threadId with
  | none => (s, [])
  | some thoughts =>
    let unselectedAI := sortDesc (thoughts.filter candPred)
    let toDelete := unselectedAI.drop 5
    if toDelete.length = 0 then (s, [])
    else
      let deleteIds := toDelete.map Thought.id
      let filtered := thoughts.filter (fun t => !deleteIds.contains t.id)
      ({ s with
         thoughts := setA s.thoughts threadId filtered,
         threadCounts := setA s.threadCounts threadId filtered.length },
       [Effect.delThoughts deleteIds])

/-- `hasUnselectedCandidates(threadId)` (stores/ThreadsStore.ts). -/
def hasUnselectedCandidates (s : Store) (threadId : Nat) : Bool :=
  (threadList s threadId).any candPred

/-- Body of the regex test `line.match(/^\d+[\.\)]/)` after the first digit:
consume further digits, then require `.` or `)`. -/
def digitsThenDot : List Char → Bool
  | [] => false
  | c :: rest => if c.isDigit then digitsThenDot rest else decide (c = '.' ∨ c = ')')

/-- `line.match(/^\d+[\.\)]/) !== null`: the line starts with one or more
digits followed by `.` or `)` (services/ai.ts, "Remove numbered lines"). -/
def isNumberedLine (line : String) : Bool :=
  match line.toList with
  | [] => false
  | c :: rest => c.isDigit && digitsThenDot rest

/-- `parseResponse(text, existingTexts)` (services/ai.ts): split the provider
response into lines, trim each, drop empty lines, numbered lines, bullet
lines, and lines equal to an existing thought text.  The JS `Set` of existing
texts is modelled as a list queried with membership. -/
def parseResponse (text : String) (existingTexts : List String) : List String :=
  ((((splitLines text).map jsTrim).filter
        (fun line => line.length > 0)).filter
      (fun line => !isNumberedLine line)).filter
    (fun line => !startsWithChar line '-' && !startsWithChar line '*'
      && !existingTexts.contains line)

/-- The provider-independent tail of `generateThoughts` (services/ai.ts): parse
the provider's response text against the context thoughts' texts, throw
`'No valid thoughts generated'` when nothing survives, otherwise return the
first `count` surviving lines.  `count` is `options.count ?? 3`. -/
def generateThoughtsResult (responseText : String) (contextTexts : List String)
    (count : Nat) : Except String (List String) :=
  let parsed := parseResponse responseText contextTexts
  if parsed.length = 0 then Except.error "No valid thoughts generated"
  else Except.ok (parsed.take count)

/-- One thought of the export/import JSON document (`importData`'s parameter
type in stores/ThreadsStore.ts). -/
structure ImportThought where
  id : Nat
  author : Author
  text : String
  createdAt : Nat
  starred : Bool
  edited : Bool
  order : Int
deriving DecidableEq, Repr

/-- One thread of the export/import JSON document. -/
structure ImportThread where
  id : Nat
  title : String
  createdAt : Nat
  updatedAt : Nat
  pinned : Bool
  threadPrompt : Option String
  thoughts : List ImportThought
deriving DecidableEq, Repr

/-- The import document.  `threads = none` models a document whose `threads`
field is missing or not an array (the `!data.threads || !Array.isArray`
guard). -/
structure ImportDoc where
  threads : Option (List ImportThread)
deriving DecidableEq, Repr

/-- The Thread built for one imported thread record: fresh id `newThreadId`,
JS falsy-coalescing (`|| Date.now()`, `|| null`, `|| false`) on the copied
fields. -/
def importedThread (td : ImportThread) (newThreadId : Nat) (now : Nat) : Thread :=
  { id := newThreadId, title := td.title,
    createdAt := if td.createdAt = 0 then now else td.createdAt,
    updatedAt := if td.updatedAt = 0 then now else td.updatedAt,
    pinned := td.pinned,
    threadPrompt :=
      match td.threadPrompt with
      | some p => if p = "" then none else some p
      | none => none,
    generationCount := 3, stats := ⟨0, 0⟩ }

/-- The Thoughts built for one imported thread record: fresh ids `newIds i`,
`selected := true` for every thought, text and `order` copied from the
document (every document thought carries a numeric `order`, so `t.order ?? i`
is `t.order`), `createdAt || Date.now()` falsy-coalesced. -/
def importedThoughts (td : ImportThread) (newThreadId : Nat) (newIds : Nat → Nat)
    (now : Nat) : List Thought :=
  td.thoughts.enum.map (fun p =>
    { id := newIds p.1, threadId := newThreadId, author := p.2.author,
      text := p.2.text,
      createdAt := if p.2.createdAt = 0 then now else p.2.createdAt,
      selected := true, starred := p.2.starred, edited := p.2.edited,
      order := p.2.order })

/-- The loop body of `importData` for one thread record of the document. -/
def importOneThread (s : Store) (td : ImportThread) (newThreadId : Nat)
    (newIds : Nat → Nat) (now : Nat) : Store × List Effect :=
  let thread := importedThread td newThreadId now
  let thoughts := importedThoughts td newThreadId newIds now
  (({ s with
      threads := thread :: s.threads,
      thoughts := setA s.thoughts newThreadId thoughts,
      threadCounts := setA s.threadCounts newThreadId thoughts.length,
      selectedCounts := setA s.selectedCounts newThreadId (thoughts.length : Int) }),
   [Effect.saveThread thread]
     ++ (if thoughts.length > 0 then [Effect.saveThoughts thoughts] else []))

/-- `importData(data)` (stores/ThreadsStore.ts): reject a document whose
`threads` field is missing or not an array before touching anything, then
bring in each thread record in turn.  `newThreadIds j` is the uuid drawn for the
`j`-th imported thread and `newIds j i` the uuid for its `i`-th thought. -/
def importData (s : Store) (doc : ImportDoc) (newThreadIds : Nat → Nat)
    (newIds : Nat → Nat → Nat) (now : Nat) : Except String (Store × List Effect) :=
  match doc.threads with
  | none => Except.error "Invalid import data"
  | some tds =>
    Except.ok (tds.enum.foldl
      (fun acc p =>
        let (s1, fx1) := importOneThread acc.1 p.2 (newThreadIds p.1) (newIds p.1) now
        (s1, acc.2 ++ fx1))
      (s, []))

/-- Operation alphabet for the insertion-order invariant: `addUserThought`
calls and completed `generateBatch` calls on one fixed thread. -/
inductive InsOp where
  | addUser (text : String) (newId now : Nat)
  | gen (regenerate configured : Bool) (ai : AIResult) (newIds : Nat → Nat) (now : Nat)

/-- Apply one insertion operation to the store. -/
def applyInsOp (threadId : Nat) (s : Store) : InsOp → Store
  | InsOp.addUser text newId now => (addUserThought s threadId text newId now).1
  | InsOp.gen regen conf ai newIds now =>
    (generateBatch s threadId regen conf ai newIds now).1

/-- Apply a sequence of insertion operations in order. -/
def applyInsOps (threadId : Nat) : Store → List InsOp → Store
  | s, [] => s
  | s, op :: ops => applyInsOps threadId (applyInsOp threadId s op) ops

/-- Operation alphabet for the selected-counter invariant: completed
`addUserThought`, `toggleSelected` and `deleteThought` calls on one thread. -/
inductive SeqOp where
  | addUser (text : String) (newId now : Nat)
  | toggleSel (thoughtId : Nat)
  | delThought (thoughtId : Nat)
deriving DecidableEq, Repr

/-- Apply one counter operation to the store. -/
def applySeqOp (threadId : Nat) (s : Store) : SeqOp → Store
  | SeqOp.addUser text newId now => (addUserThought s threadId text newId now).1
  | SeqOp.toggleSel thoughtId => (toggleSelected s thoughtId threadId).1
  | SeqOp.delThought thoughtId => (deleteThought s thoughtId threadId).1

/-- Apply a sequence of counter operations in order. -/
def applySeqOps (threadId : Nat) : Store → List SeqOp → Store
  | s, [] => s
  | s, op :: ops => applySeqOps threadId (applySeqOp threadId s op) ops

/-- Uuid freshness along a sequence: every `addUser` draws an id that is not
present in the thread at the moment the operation runs. -/
def freshSeq (threadId : Nat) : Store → List SeqOp → Bool
  | _, [] => true
  | s, op :: ops =>
    (match op with
     | SeqOp.addUser _ newId _ =>
       !(((threadList s threadId).map Thought.id).contains newId)
     | _ => true) && freshSeq threadId (applySeqOp threadId s op) ops

/-- The cached-counter consistency property of claim C3: the
`selectedCounts` entry for the thread equals the number of `selected=true`
thoughts in its in-memory list, recomputed from scratch. -/
def selInv (s : Store) (threadId : Nat) : Prop :=
  (getA s.selectedCounts threadId).getD 0
    = ((threadList s threadId).countP (fun t => t.selected) : Int)

/-! ## Concrete instances used to witness the theorems -/

/-- A three-thought document thread instantiating the import theorem. -/
def c8DocThread : ImportThread :=
  { id := 3, title := "T", createdAt := 1, updatedAt := 2, pinned := false,
    threadPrompt := none,
    thoughts :=
      [{ id := 4, author := Author.user, text := "a", createdAt := 1,
         starred := false, edited := false, order := 0 },
       { id := 5, author := Author.ai, text := "b", createdAt := 2,
         starred := true, edited := false, order := 1 },
       { id := 6, author := Author.user, text := "c", createdAt := 3,
         starred := false, edited := true, order := 2 }] }

/-- A store with no threads and no thoughts, used to instantiate theorems. -/
def emptyStore : Store :=
  { threads := [], thoughts := [], starredThoughts := [], threadCounts := [],
    selectedCounts := [], isGenerating := false, error := none,
    hasAbortController := false }

/-- A thread record with id 1. -/
def demoThread : Thread :=
  { id := 1, title := "Untitled", createdAt := 10, updatedAt := 10,
    pinned := false, threadPrompt := none, generationCount := 3,
    stats := ⟨0, 0⟩ }

/-- A selected user thought with id 7 in thread 1 at order 0. -/
def demoUserThought : Thought :=
  { id := 7, threadId := 1, author := Author.user, text := "seed",
    createdAt := 10, selected := true, starred := false, edited := false,
    order := 0 }

/-- A store holding thread 1 with the single loaded thought id 7. -/
def c10Store : Store :=
  { threads := [demoThread], thoughts := [(1, [demoUserThought])],
    starredThoughts := [], threadCounts := [(1, 1)], selectedCounts := [(1, 1)],
    isGenerating := false, error := none, hasAbortController := false }

/-- An unselected ai candidate with id 8 in thread 1 at order 1. -/
def demoAi1 : Thought :=
  { id := 8, threadId := 1, author := Author.ai, text := "cand1",
    createdAt := 11, selected := false, starred := false, edited := false,
    order := 1 }

/-- An unselected ai candidate with id 9 in thread 1 at order 2. -/
def demoAi2 : Thought :=
  { id := 9, threadId := 1, author := Author.ai, text := "cand2",
    createdAt := 12, selected := false, starred := false, edited := false,
    order := 2 }

/-- A store holding thread 1 with thoughts `[user(sel,0), ai(unsel,1),
ai(unsel,2)]` — the scenario of spec §8. -/
def c7Store : Store :=
  { threads := [demoThread],
    thoughts := [(1, [demoUserThought, demoAi1, demoAi2])],
    starredThoughts := [], threadCounts := [(1, 3)], selectedCounts := [(1, 1)],
    isGenerating := false, error := none, hasAbortController := false }

/-- Seven unselected ai candidates at orders 1..7 behind one selected user
thought, for instantiating the pruning theorem. -/
def c2Thoughts : List Thought :=
  demoUserThought ::
    (List.range 7).map (fun i =>
      { id := 11 + i, threadId := 1, author := Author.ai, text := "c",
        createdAt := 20 + i, selected := false, starred := false,
        edited := false, order := (1 : Int) + i })

/-- A store holding thread 1 with `c2Thoughts` loaded. -/
def c2Store : Store :=
  { threads := [demoThread], thoughts := [(1, c2Thoughts)],
    starredThoughts := [], threadCounts := [(1, 8)], selectedCounts := [(1, 1)],
    isGenerating := false, error := none, hasAbortController := false }

/-- C4 scenario, step 1: `generateBatch(threadId 1, regenerate=false)` on the
configured one-thought store runs up to its `await generateThoughts`, leaving
the request in flight. -/
def c4Start : Store × List Effect × Option (Thread × List Thought) :=
  generateBatchStart c10Store 1 false true

/-- C4 scenario, step 2: `cancelGeneration()` fires while the request is in
flight: it aborts the store's `AbortController` and clears the flags. -/
def c4AfterCancel : Store := cancelGeneration c4Start.1

/-- C4 scenario, step 3: the pending `generateThoughts` call resolves
normally with one candidate — `GenerateOptions` in services/ai.ts declares no
`signal` field and none of its `fetch` calls receives one, so the abort in
step 2 cannot reject the pending promise — and the suspended `generateBatch`
coroutine resumes on the cancelled store. -/
def c4Final : Store × List Effect :=
  generateBatchFinish c4AfterCancel 1
    (c4Start.2.2.getD (demoThread, [])).1 (c4Start.2.2.getD (demoThread, [])).2
    (AIResult.ok ["resolved"] 3 4) (fun i => 100 + i) 99

/-! ## Helper lemmas about the modelling primitives -/

theorem getA_setA_self {α : Type} (m : List (Nat × α)) (k : Nat) (v : α) :
    getA (setA m k v) k = some v := by
  induction m with
  | nil => simp [setA, getA]
  | cons kv rest ih =>
    obtain ⟨k', v'⟩ := kv
    by_cases h : k' = k <;> simp [setA, getA, h, ih]

theorem getA_setA_ne {α : Type} (m : List (Nat × α)) (k k' : Nat) (v : α)
    (h : k' ≠ k) : getA (setA m k v) k' = getA m k' := by
  have h' : ¬ k = k' := fun e => h e.symm
  induction m with
  | nil => simp [setA, getA, h']
  | cons kv rest ih =>
    obtain ⟨k'', v''⟩ := kv
    by_cases hk : k'' = k
    · subst hk
      simp [setA, getA, h']
    · by_cases hk' : k'' = k' <;> simp [setA, getA, hk, hk', ih, h]

/-- Decomposition of a successful `find?`: the list splits at the found
element, and `updateFirst` / `removeFirst` act exactly there. -/
theorem find?_decomp {α : Type} (p : α → Bool) (l : List α) (a : α)
    (h : l.find? p = some a) :
    ∃ l₁ l₂, l = l₁ ++ a :: l₂ ∧ (∀ x ∈ l₁, p x = false) ∧ p a = true ∧
      (∀ f : α → α, updateFirst p f l = l₁ ++ f a :: l₂) ∧
      removeFirst p l = l₁ ++ l₂ := by
  induction l with
  | nil => simp [List.find?] at h
  | cons x xs ih =>
    by_cases hx : p x
    · rw [List.find?_cons_of_pos _ hx] at h
      obtain rfl : x = a := by injection h
      exact ⟨[], xs, by simp, by simp, hx,
        fun f => by simp [updateFirst, hx], by simp [removeFirst, hx]⟩
    · rw [List.find?_cons_of_neg _ hx] at h
      obtain ⟨l₁, l₂, rfl, h₁, ha, hu, hr⟩ := ih h
      refine ⟨x :: l₁, l₂, rfl, ?_, ha, fun f => ?_, ?_⟩
      · intro y hy
        rcases List.mem_cons.mp hy with rfl | hy'
        · simpa using hx
        · exact h₁ y hy'
      · simp [updateFirst, hx, hu f]
      · simp [removeFirst, hx, hr]

theorem updateFirst_of_find?_none {α : Type} (p : α → Bool) (f : α → α)
    (l : List α) (h : l.find? p = none) : updateFirst p f l = l := by
  induction l with
  | nil => rfl
  | cons x xs ih =>
    rw [List.find?_eq_none] at h
    have hx : ¬ p x = true := h x (List.mem_cons_self x xs)
    rw [List.find?_eq_none] at ih
    simp [updateFirst, hx, ih (fun y hy => h y (List.mem_cons_of_mem x hy))]

theorem removeFirst_of_find?_none {α : Type} (p : α → Bool)
    (l : List α) (h : l.find? p = none) : removeFirst p l = l := by
  induction l with
  | nil => rfl
  | cons x xs ih =>
    rw [List.find?_eq_none] at h
    have hx : ¬ p x = true := h x (List.mem_cons_self x xs)
    rw [List.find?_eq_none] at ih
    simp [removeFirst, hx, ih (fun y hy => h y (List.mem_cons_of_mem x hy))]

theorem removeFirst_sublist {α : Type} (p : α → Bool) (l : List α) :
    List.Sublist (removeFirst p l) l := by
  induction l with
  | nil => simp [removeFirst]
  | cons x xs ih =>
    by_cases hx : p x
    · simp only [removeFirst, hx, if_pos]
      exact List.sublist_cons_self x xs
    · simpa [removeFirst, hx] using List.Sublist.cons₂ x ih

theorem map_updateFirst_of_preserve {α β : Type} (p : α → Bool) (f : α → α)
    (g : α → β) (hg : ∀ x, g (f x) = g x) (l : List α) :
    (updateFirst p f l).map g = l.map g := by
  induction l with
  | nil => rfl
  | cons x xs ih =>
    by_cases hx : p x <;> simp [updateFirst, hx, hg, ih]

/-- `find?` on an id-distinct list returns a member queried by its own id. -/
theorem find?_id_of_nodup (l : List Thought) (hn : (l.map Thought.id).Nodup)
    (a : Thought) (ha : a ∈ l) :
    l.find? (fun t => decide (t.id = a.id)) = some a := by
  induction l with
  | nil => cases ha
  | cons x xs ih =>
    rw [List.map_cons, List.nodup_cons] at hn
    rcases List.mem_cons.mp ha with rfl | ha'
    · exact List.find?_cons_of_pos _ (by simp)
    · have hx : ¬ x.id = a.id := by
        intro he
        exact hn.1 (he ▸ List.mem_map_of_mem Thought.id ha')
      rw [List.find?_cons_of_neg _ (by simp [hx])]
      exact ih hn.2 ha'

/-- On an id-distinct list, an element's id occurs among the ids of a filtered
sublist exactly when the element itself satisfies the filter. -/
theorem contains_map_id_filter_iff (l : List Thought) (hn : (l.map Thought.id).Nodup)
    (q : Thought → Bool) (x : Thought) (hx : x ∈ l) :
    ((l.filter q).map Thought.id).contains x.id = true ↔ q x = true := by
  have hcm : ((l.filter q).map Thought.id).contains x.id = true
      ↔ x.id ∈ (l.filter q).map Thought.id := by simp
  rw [hcm]
  constructor
  · intro h
    obtain ⟨y, hy, hyx⟩ := List.mem_map.mp h
    obtain ⟨hyl, hyq⟩ := List.mem_filter.mp hy
    have : y = x := List.inj_on_of_nodup_map hn hyl hx hyx
    exact this ▸ hyq
  · intro h
    exact List.mem_map_of_mem Thought.id (List.mem_filter.mpr ⟨hx, h⟩)

/-- Filtering away only elements that fail `q` keeps the `q`-count unchanged. -/
theorem countP_filter_of_imp (l : List Thought) (q keep : Thought → Bool)
    (h : ∀ t ∈ l, q t = true → keep t = true) :
    (l.filter keep).countP q = l.countP q := by
  induction l with
  | nil => rfl
  | cons x xs ih =>
    have ih' := ih (fun t ht => h t (List.mem_cons_of_mem _ ht))
    by_cases hq : q x
    · have hk := h x (List.mem_cons_self x xs) hq
      simp [List.filter_cons, hk, List.countP_cons, hq, ih']
    · by_cases hk : keep x <;> simp [List.filter_cons, hk, List.countP_cons, hq, ih']

theorem insertDesc_perm (t : Thought) (l : List Thought) :
    (insertDesc t l).Perm (t :: l) := by
  induction l with
  | nil => simp [insertDesc]
  | cons u us ih =>
    by_cases h : u.order ≤ t.order
    · simp [insertDesc, h]
    · simp only [insertDesc, h, if_neg, Bool.false_eq_true, not_false_iff, ite_false]
      exact (List.Perm.cons u ih).trans (List.Perm.swap t u us)

theorem sortDesc_perm (l : List Thought) : (sortDesc l).Perm l := by
  induction l with
  | nil => simp [sortDesc]
  | cons t ts ih =>
    exact ((insertDesc_perm t (sortDesc ts)).trans (List.Perm.cons t ih))

theorem mem_insertDesc (t x : Thought) (l : List Thought) :
    x ∈ insertDesc t l ↔ x = t ∨ x ∈ l := by
  rw [(insertDesc_perm t l).mem_iff]
  simp

theorem insertDesc_sorted (t : Thought) (l : List Thought)
    (h : l.Pairwise (fun a b => b.order ≤ a.order)) :
    (insertDesc t l).Pairwise (fun a b => b.order ≤ a.order) := by
  induction l with
  | nil => simp [insertDesc]
  | cons u us ih =>
    rw [List.pairwise_cons] at h
    by_cases hu : u.order ≤ t.order
    · simp only [insertDesc, hu, if_pos]
      rw [List.pairwise_cons]
      refine ⟨?_, List.pairwise_cons.mpr h⟩
      intro y hy
      rcases List.mem_cons.mp hy with rfl | hy'
      · exact hu
      · exact le_trans (h.1 y hy') hu
    · simp only [insertDesc, hu, if_neg, Bool.false_eq_true, not_false_iff, ite_false]
      rw [List.pairwise_cons]
      refine ⟨?_, ih h.2⟩
      intro y hy
      rcases (mem_insertDesc t y us).mp hy with rfl | hy'
      · exact le_of_not_le hu
      · exact h.1 y hy'

theorem sortDesc_sorted (l : List Thought) :
    (sortDesc l).Pairwise (fun a b => b.order ≤ a.order) := by
  induction l with
  | nil => simp [sortDesc]
  | cons t ts ih => exact insertDesc_sorted t (sortDesc ts) ih

/-- In a strictly descending list, an element is among the first `k` exactly
when fewer than `k` elements of the list have a strictly larger key. -/
theorem mem_take_iff_countP_lt (l : List Thought)
    (hs : l.Pairwise (fun a b => b.order < a.order)) (c : Thought) (hc : c ∈ l)
    (k : Nat) :
    c ∈ l.take k ↔ l.countP (fun d => decide (c.order < d.order)) < k := by
  induction l generalizing k with
  | nil => cases hc
  | cons a rest ih =>
    rw [List.pairwise_cons] at hs
    rcases List.mem_cons.mp hc with rfl | hc'
    · have h0 : (c :: rest).countP (fun d => decide (c.order < d.order)) = 0 := by
        rw [List.countP_eq_zero]
        intro d hd
        rcases List.mem_cons.mp hd with rfl | hd'
        · simp
        · simpa using not_lt_of_gt (hs.1 d hd')
      rw [h0]
      cases k with
      | zero => simp
      | succ k => simp [List.take_succ_cons]
    · have hlt : c.order < a.order := hs.1 c hc'
      have hcount : (a :: rest).countP (fun d => decide (c.order < d.order))
          = rest.countP (fun d => decide (c.order < d.order)) + 1 := by
        rw [List.countP_cons]
        simp [hlt]
      cases k with
      | zero => simp
      | succ k =>
        rw [hcount, List.take_succ_cons]
        constructor
        · intro h
          rcases List.mem_cons.mp h with rfl | h'
          · exact absurd hlt (lt_irrefl _)
          · exact Nat.succ_lt_succ ((ih hs.2 hc' k).mp h')
        · intro h
          exact List.mem_cons_of_mem _ ((ih hs.2 hc' k).mpr (Nat.lt_of_succ_lt_succ h))

theorem find?_append_of_none {α : Type} (p : α → Bool) (l₁ l₂ : List α)
    (h₁ : ∀ x ∈ l₁, p x = false) : (l₁ ++ l₂).find? p = l₂.find? p := by
  induction l₁ with
  | nil => rfl
  | cons x xs ih =>
    have hx : ¬ p x = true := by simp [h₁ x (List.mem_cons_self x xs)]
    rw [List.cons_append, List.find?_cons_of_neg _ hx]
    exact ih (fun y hy => h₁ y (List.mem_cons_of_mem x hy))

theorem find?_updateFirst {α : Type} (p : α → Bool) (f : α → α) (l : List α)
    (a : α) (h : l.find? p = some a) (hf : p (f a) = true) :
    (updateFirst p f l).find? p = some (f a) := by
  obtain ⟨l₁, l₂, rfl, h₁, _, hu, _⟩ := find?_decomp p _ a h
  rw [hu f, find?_append_of_none p l₁ _ h₁, List.find?_cons_of_pos _ hf]

theorem setA_setA {α : Type} (m : List (Nat × α)) (k : Nat) (v v' : α) :
    setA (setA m k v) k v' = setA m k v' := by
  induction m with
  | nil => simp [setA]
  | cons kv rest ih =>
    obtain ⟨k'', v''⟩ := kv
    by_cases hk : k'' = k <;> simp [setA, hk, ih]

/-! ## C10: operations on a missing thought are complete no-ops -/

/-- C10: a `toggleSelected`, `toggleStarred` or `editThought` call whose
`thoughtId` does not occur in the in-memory thought list for `threadId`
(including the case where that thread's thoughts were never loaded, so the
map has no entry) returns with the store completely unchanged and performs no
persistence-gateway call at all. -/
theorem C10_missing_thought_noop (s : Store) (thoughtId threadId : Nat)
    (newText : String) (dbStarred : List Thought)
    (h : thoughtId ∉ (threadList s threadId).map Thought.id) :
    toggleSelected s thoughtId threadId = (s, [])
    ∧ toggleStarred s thoughtId threadId dbStarred = (s, [])
    ∧ editThought s thoughtId threadId newText = (s, []) := by
  have hfind : ∀ thoughts : List Thought, getA s.thoughts threadId = some thoughts →
      thoughts.find? (fun t => decide (t.id = thoughtId)) = none := by
    intro thoughts hget
    rw [List.find?_eq_none]
    intro x hx
    simp only [decide_eq_true_eq]
    intro he
    apply h
    rw [threadList, hget]
    simpa [he] using List.mem_map_of_mem Thought.id hx
  refine ⟨?_, ?_, ?_⟩ <;>
  · cases hget : getA s.thoughts threadId with
    | none => simp [toggleSelected, toggleStarred, editThought, hget]
    | some thoughts =>
      simp [toggleSelected, toggleStarred, editThought, hget, hfind thoughts hget]

/-- Witness for C10 at a concrete store: one loaded thread whose single
thought has id 7, queried with id 5. -/
theorem C10_missing_thought_noop_witness :
    toggleSelected c10Store 5 1 = (c10Store, [])
    ∧ toggleStarred c10Store 5 1 [] = (c10Store, [])
    ∧ editThought c10Store 5 1 "x" = (c10Store, []) :=
  C10_missing_thought_noop c10Store 5 1 "x" [] (by decide)

/-! ## C7: which operations refresh `updatedAt` -/

theorem toggleSelected_threads (s : Store) (thoughtId threadId : Nat) :
    (toggleSelected s thoughtId threadId).1.threads = s.threads := by
  unfold toggleSelected
  split
  · rfl
  · split
    · rfl
    · dsimp only
      split
      · split <;> rfl
      · rfl

theorem deleteThought_threads (s : Store) (thoughtId threadId : Nat) :
    (deleteThought s thoughtId threadId).1.threads = s.threads := by
  unfold deleteThought
  split
  · rfl
  · rfl

/-- C7 counterexample: in the store `[user(sel,0), ai(unsel,1), ai(unsel,2)]`
with the parent thread's `updatedAt = 10`, selecting the candidate with id 9
(which flips its flag and cascades, as the changed selected counter shows) and
deleting the selected thought id 7 both leave the thread records, and hence
`updatedAt`, entirely unchanged: neither operation even takes a current-time
input, so the claim that they refresh `updatedAt` is false. -/
theorem C7_counterexample :
    ((toggleSelected c7Store 9 1).1.threads = c7Store.threads
      ∧ getA (toggleSelected c7Store 9 1).1.selectedCounts 1 = some 2)
    ∧ ((deleteThought c7Store 7 1).1.threads = c7Store.threads
      ∧ getA (deleteThought c7Store 7 1).1.selectedCounts 1 = some 0)
    ∧ c7Store.threads.map Thread.updatedAt = [10] := by decide

/-! ## C9: shape of a successful `generateThoughts` result -/

/-- C9: for every provider response, context and requested count, a successful
`generateThoughts` result holds at most `count` strings; every returned string
is the trim of some line of the response, is non-empty, is neither numbered
nor a bullet point, and differs from the text of every context thought; and
the call fails with `'No valid thoughts generated'` exactly when no line of
the response survives the `parseResponse` filtering. -/
theorem C9_generateThoughts_shape (responseText : String)
    (contextTexts : List String) (count : Nat) :
    (∀ r, generateThoughtsResult responseText contextTexts count = Except.ok r →
      r.length ≤ count ∧
      ∀ lineOut ∈ r,
        (∃ raw ∈ splitLines responseText, lineOut = jsTrim raw)
        ∧ lineOut.length > 0
        ∧ isNumberedLine lineOut = false
        ∧ startsWithChar lineOut '-' = false
        ∧ startsWithChar lineOut '*' = false
        ∧ lineOut ∉ contextTexts)
    ∧ (generateThoughtsResult responseText contextTexts count
        = Except.error "No valid thoughts generated"
      ↔ parseResponse responseText contextTexts = []) := by
  constructor
  · intro r hr
    rw [generateThoughtsResult] at hr
    by_cases h0 : (parseResponse responseText contextTexts).length = 0
    · simp [h0] at hr
    · simp only [h0, if_neg, if_false, Except.ok.injEq] at hr
      subst hr
      constructor
      · exact List.length_take_le ..
      · intro lineOut hmem
        have hp : lineOut ∈ parseResponse responseText contextTexts :=
          List.take_subset count _ hmem
        rw [parseResponse] at hp
        have h3 := List.mem_filter.mp hp
        have h2 := List.mem_filter.mp h3.1
        have h1 := List.mem_filter.mp h2.1
        obtain ⟨raw, hraw, hres⟩ := List.mem_map.mp h1.1
        refine ⟨⟨raw, hraw, hres.symm⟩, by simpa using h1.2, ?_, ?_, ?_, ?_⟩
        · simpa using h2.2
        · have := h3.2
          simp only [Bool.and_eq_true, Bool.not_eq_true'] at this
          exact this.1.1
        · have := h3.2
          simp only [Bool.and_eq_true, Bool.not_eq_true'] at this
          exact this.1.2
        · have := h3.2
          simp only [Bool.and_eq_true, Bool.not_eq_true'] at this
          simpa using this.2
  · rw [generateThoughtsResult]
    by_cases h0 : (parseResponse responseText contextTexts).length = 0
    · rw [if_pos h0]
      rw [List.length_eq_zero] at h0
      simp [h0]
    · rw [if_neg h0]
      constructor
      · intro h
        cases h
      · intro h
        exact absurd (by simp [h]) h0

/-- Witness for C9: the response `"1. a\nok\nctx"` against context `["ctx"]`
with count 3 yields exactly `["ok"]`, which satisfies all shape properties. -/
theorem C9_generateThoughts_shape_witness :
    ["ok"].length ≤ 3
    ∧ (∃ raw ∈ splitLines "1. a\nok\nctx", "ok" = jsTrim raw)
    ∧ isNumberedLine "ok" = false
    ∧ "ok" ∉ ["ctx"] := by
  have hp : parseResponse "1. a\nok\nctx" ["ctx"] = ["ok"] := by decide
  have h := (C9_generateThoughts_shape "1. a\nok\nctx" ["ctx"] 3).1 ["ok"]
    (by rw [generateThoughtsResult, hp]; rfl)
  have hm := h.2 "ok" (by simp)
  exact ⟨h.1, hm.1, hm.2.2.1, hm.2.2.2.2.2⟩

/-! ## C8: import semantics -/

/-- C8: importing a document with a single thread carrying `n` thoughts
creates one new thread (prepended to the list) holding exactly `n` thoughts
whose `text` and `order` are copied positionally from the document and whose
`selected` flag is true throughout, while the thread and all thoughts receive
the freshly drawn ids, which (under uuid freshness) differ from every id in
the document; and importing a document whose `threads` field is missing or
not an array fails with `'Invalid import data'` before creating anything. -/
theorem C8_importData_shape (s : Store) (td : ImportThread) (newThreadId now : Nat)
    (newIds : Nat → Nat)
    (hT : newThreadId ∉ td.id :: td.thoughts.map ImportThought.id)
    (hI : ∀ i, i < td.thoughts.length →
      newIds i ∉ td.id :: td.thoughts.map ImportThought.id) :
    (∃ s' fx, importData s ⟨some [td]⟩ (fun _ => newThreadId) (fun _ => newIds) now
        = Except.ok (s', fx)
      ∧ (∃ newThread, s'.threads = newThread :: s.threads
          ∧ newThread.id = newThreadId
          ∧ newThread.id ∉ td.id :: td.thoughts.map ImportThought.id)
      ∧ (∃ ts, getA s'.thoughts newThreadId = some ts
          ∧ ts.length = td.thoughts.length
          ∧ ts.map Thought.text = td.thoughts.map ImportThought.text
          ∧ ts.map Thought.order = td.thoughts.map ImportThought.order
          ∧ (∀ t ∈ ts, t.selected = true)
          ∧ (∀ t ∈ ts, t.id ∉ td.id :: td.thoughts.map ImportThought.id)))
    ∧ importData s ⟨none⟩ (fun _ => newThreadId) (fun _ => newIds) now
        = Except.error "Invalid import data" := by
  constructor
  · refine ⟨(importOneThread s td newThreadId newIds now).1,
      (importOneThread s td newThreadId newIds now).2, by rfl, ?_, ?_⟩
    · exact ⟨importedThread td newThreadId now, rfl, rfl, hT⟩
    · refine ⟨importedThoughts td newThreadId newIds now, getA_setA_self .., ?_, ?_, ?_, ?_, ?_⟩
      · simp [importedThoughts]
      · simp only [importedThoughts, List.map_map]
        rw [show ((fun t : Thought => t.text) ∘ fun p : Nat × ImportThought =>
          ({ id := newIds p.1, threadId := newThreadId, author := p.2.author,
             text := p.2.text,
             createdAt := if p.2.createdAt = 0 then now else p.2.createdAt,
             selected := true, starred := p.2.starred, edited := p.2.edited,
             order := p.2.order } : Thought)) = ImportThought.text ∘ Prod.snd from rfl]
        rw [← List.map_map, List.enum_map_snd]
      · simp only [importedThoughts, List.map_map]
        rw [show ((fun t : Thought => t.order) ∘ fun p : Nat × ImportThought =>
          ({ id := newIds p.1, threadId := newThreadId, author := p.2.author,
             text := p.2.text,
             createdAt := if p.2.createdAt = 0 then now else p.2.createdAt,
             selected := true, starred := p.2.starred, edited := p.2.edited,
             order := p.2.order } : Thought)) = ImportThought.order ∘ Prod.snd from rfl]
        rw [← List.map_map, List.enum_map_snd]
      · intro t ht
        obtain ⟨p, _, rfl⟩ := List.mem_map.mp ht
        rfl
      · intro t ht
        obtain ⟨p, hp, rfl⟩ := List.mem_map.mp ht
        have hlt : p.1 < td.thoughts.length := by
          have := List.mem_enum_iff_getElem?.mp hp
          exact (List.getElem?_eq_some.mp this).1
        exact hI p.1 hlt
  · rfl

/-- Witness for C8: importing the three-thought document thread into the
empty store with fresh ids 100 (thread) and 200.. (thoughts). -/
theorem C8_importData_shape_witness :
    (∃ s' fx, importData emptyStore ⟨some [c8DocThread]⟩ (fun _ => 100)
        (fun _ => fun i => 200 + i) 50 = Except.ok (s', fx)
      ∧ (∃ newThread, s'.threads = newThread :: emptyStore.threads
          ∧ newThread.id = 100
          ∧ newThread.id ∉ c8DocThread.id :: c8DocThread.thoughts.map ImportThought.id)
      ∧ (∃ ts, getA s'.thoughts 100 = some ts
          ∧ ts.length = c8DocThread.thoughts.length
          ∧ ts.map Thought.text = c8DocThread.thoughts.map ImportThought.text
          ∧ ts.map Thought.order = c8DocThread.thoughts.map ImportThought.order
          ∧ (∀ t ∈ ts, t.selected = true)
          ∧ (∀ t ∈ ts, t.id ∉ c8DocThread.id :: c8DocThread.thoughts.map ImportThought.id)))
    ∧ importData emptyStore ⟨none⟩ (fun _ => 100) (fun _ => fun i => 200 + i) 50
        = Except.error "Invalid import data" :=
  C8_importData_shape emptyStore c8DocThread 100 50 (fun i => 200 + i)
    (by decide) (by decide)

/-! ## C1: the selection cascade -/

theorem mem_split_facts (l : List Thought) (tgt : Thought)
    (hn : (l.map Thought.id).Nodup) (htgt : tgt ∈ l) :
    ∃ l₁ l₂, l = l₁ ++ tgt :: l₂
      ∧ (∀ u ∈ l₁ ++ l₂, u.id ≠ tgt.id)
      ∧ updateFirst (fun t => decide (t.id = tgt.id)) flipSelected l
          = l₁ ++ flipSelected tgt :: l₂ := by
  have hfind := find?_id_of_nodup l hn tgt htgt
  obtain ⟨l₁, l₂, hsplit, h₁, _, hu, _⟩ := find?_decomp _ l tgt hfind
  refine ⟨l₁, l₂, hsplit, ?_, hu flipSelected⟩
  subst hsplit
  intro u hu' he
  rw [List.map_append, List.map_cons] at hn
  have hmid := List.nodup_middle.mp hn
  rw [List.nodup_cons] at hmid
  apply hmid.1
  rw [← he]
  rcases List.mem_append.mp hu' with h | h
  · exact List.mem_append.mpr (Or.inl (List.mem_map_of_mem _ h))
  · exact List.mem_append.mpr (Or.inr (List.mem_map_of_mem _ h))

theorem toggleSelected_select_result (s : Store) (threadId : Nat)
    (l : List Thought) (tgt : Thought)
    (hl : getA s.thoughts threadId = some l)
    (hn : (l.map Thought.id).Nodup) (htgt : tgt ∈ l)
    (hai : tgt.author = Author.ai) (hsel : tgt.selected = false) :
    getA (toggleSelected s tgt.id threadId).1.thoughts threadId
      = some ((updateFirst (fun t => decide (t.id = tgt.id)) flipSelected l).filter
          (fun t => !cascadePred tgt.order t)) := by
  have hfind := find?_id_of_nodup l hn tgt htgt
  have hn1 : ((updateFirst (fun t => decide (t.id = tgt.id)) flipSelected l).map
      Thought.id).Nodup := by
    rw [map_updateFirst_of_preserve (fun t => decide (t.id = tgt.id)) flipSelected
      Thought.id (fun x => rfl) l]
    exact hn
  unfold toggleSelected
  rw [hl]
  dsimp only
  rw [hfind]
  dsimp only
  rw [hsel, hai]
  simp only [Bool.not_false, decide_True, Bool.and_self, if_true]
  set thoughts1 := updateFirst (fun t => decide (t.id = tgt.id)) flipSelected l with hth1
  by_cases hlen : (thoughts1.filter (cascadePred tgt.order)).length > 0
  · rw [if_pos hlen]
    dsimp only
    rw [setA_setA, getA_setA_self]
    refine congrArg some (List.filter_congr ?_)
    intro x hx
    have h := contains_map_id_filter_iff thoughts1 hn1 (cascadePred tgt.order) x hx
    by_cases hp : cascadePred tgt.order x = true
    · rw [hp, h.mpr hp]
    · rw [Bool.not_eq_true] at hp
      have hc : (((thoughts1.filter (cascadePred tgt.order)).map
          Thought.id).contains x.id) = false := by
        rw [← Bool.not_eq_true]
        intro hh
        rw [h.mp hh] at hp
        cases hp
      rw [hc, hp]
  · rw [if_neg hlen]
    dsimp only
    rw [getA_setA_self]
    refine congrArg some ?_
    have hnil : thoughts1.filter (cascadePred tgt.order) = [] := by
      rw [← List.length_eq_zero]
      omega
    have hall : ∀ x ∈ thoughts1, (!cascadePred tgt.order x) = true := by
      intro x hx
      rw [Bool.not_eq_true']
      by_contra hp
      rw [Bool.not_eq_false] at hp
      have : x ∈ thoughts1.filter (cascadePred tgt.order) :=
        List.mem_filter.mpr ⟨hx, hp⟩
      rw [hnil] at this
      cases this
    exact (List.filter_eq_self.mpr hall).symm

theorem toggleSelected_deselect_result (s : Store) (threadId : Nat)
    (l : List Thought) (tgt : Thought)
    (hl : getA s.thoughts threadId = some l)
    (hn : (l.map Thought.id).Nodup) (htgt : tgt ∈ l)
    (hsel : tgt.selected = true) :
    getA (toggleSelected s tgt.id threadId).1.thoughts threadId
      = some (updateFirst (fun t => decide (t.id = tgt.id)) flipSelected l) := by
  have hfind := find?_id_of_nodup l hn tgt htgt
  unfold toggleSelected
  rw [hl]
  dsimp only
  rw [hfind]
  dsimp only
  rw [hsel]
  simp only [Bool.not_true, Bool.false_and, if_false, Bool.false_eq_true]
  rw [getA_setA_self]

theorem cascadePred_eq_true_iff (k : Int) (t : Thought) :
    cascadePred k t = true
      ↔ (t.author = Author.ai ∧ t.selected = false ∧ t.order < k) := by
  simp only [cascadePred, Bool.and_eq_true, Bool.not_eq_true', decide_eq_true_eq]
  tauto

/-- C1: flipping an ai-authored thought from `selected=false` to
`selected=true` deletes exactly the other thoughts of the thread that are
ai-authored, unselected and of strictly smaller `order` — the flipped target
survives, every other thought outside that class survives untouched, and no
thought from elsewhere appears; flipping from `selected=true` to
`selected=false` deletes nothing. -/
theorem C1_toggleSelected_cascade (s : Store) (threadId : Nat) (l : List Thought)
    (tgt : Thought)
    (hl : getA s.thoughts threadId = some l)
    (hn : (l.map Thought.id).Nodup)
    (htgt : tgt ∈ l)
    (hai : tgt.author = Author.ai) :
    (tgt.selected = false →
      ∃ r, getA (toggleSelected s tgt.id threadId).1.thoughts threadId = some r
        ∧ flipSelected tgt ∈ r
        ∧ (∀ u ∈ l, u.id ≠ tgt.id →
            ((u.author = Author.ai ∧ u.selected = false ∧ u.order < tgt.order) →
              u ∉ r)
            ∧ (¬(u.author = Author.ai ∧ u.selected = false ∧ u.order < tgt.order) →
              u ∈ r))
        ∧ (∀ u ∈ r, u = flipSelected tgt ∨ (u ∈ l ∧ u.id ≠ tgt.id)))
    ∧ (tgt.selected = true →
      ∃ r, getA (toggleSelected s tgt.id threadId).1.thoughts threadId = some r
        ∧ flipSelected tgt ∈ r
        ∧ r.length = l.length
        ∧ (∀ u ∈ l, u.id ≠ tgt.id → u ∈ r)
        ∧ (∀ u ∈ r, u = flipSelected tgt ∨ (u ∈ l ∧ u.id ≠ tgt.id))) := by
  obtain ⟨l₁, l₂, hsplit, hids, hupd⟩ := mem_split_facts l tgt hn htgt
  have hmem1 : ∀ u ∈ l, u.id ≠ tgt.id →
      u ∈ updateFirst (fun t => decide (t.id = tgt.id)) flipSelected l := by
    intro u hu hne
    rw [hupd]
    rw [hsplit] at hu
    rcases List.mem_append.mp hu with h | h
    · exact List.mem_append.mpr (Or.inl h)
    · rcases List.mem_cons.mp h with rfl | h'
      · exact absurd rfl hne
      · exact List.mem_append.mpr (Or.inr (List.mem_cons_of_mem _ h'))
  have hmem2 : ∀ u ∈ updateFirst (fun t => decide (t.id = tgt.id)) flipSelected l,
      u = flipSelected tgt ∨ (u ∈ l ∧ u.id ≠ tgt.id) := by
    intro u hu
    rw [hupd] at hu
    rcases List.mem_append.mp hu with h | h
    · refine Or.inr ⟨by rw [hsplit]; exact List.mem_append.mpr (Or.inl h), ?_⟩
      exact hids u (List.mem_append.mpr (Or.inl h))
    · rcases List.mem_cons.mp h with rfl | h'
      · exact Or.inl rfl
      · refine Or.inr ⟨by
          rw [hsplit]
          exact List.mem_append.mpr (Or.inr (List.mem_cons_of_mem _ h')), ?_⟩
        exact hids u (List.mem_append.mpr (Or.inr h'))
  have hflipmem : flipSelected tgt
      ∈ updateFirst (fun t => decide (t.id = tgt.id)) flipSelected l := by
    rw [hupd]
    exact List.mem_append.mpr (Or.inr (List.mem_cons_self _ _))
  constructor
  · intro hsel
    refine ⟨_, toggleSelected_select_result s threadId l tgt hl hn htgt hai hsel,
      ?_, ?_, ?_⟩
    · refine List.mem_filter.mpr ⟨hflipmem, ?_⟩
      simp [cascadePred, flipSelected, hsel]
    · intro u hu hne
      constructor
      · intro hcl hur
        have hfilter := (List.mem_filter.mp hur).2
        rw [(cascadePred_eq_true_iff tgt.order u).mpr hcl] at hfilter
        simp at hfilter
      · intro hcl
        refine List.mem_filter.mpr ⟨hmem1 u hu hne, ?_⟩
        cases hb : cascadePred tgt.order u
        · rfl
        · exact absurd ((cascadePred_eq_true_iff tgt.order u).mp hb) hcl
    · intro u hur
      exact hmem2 u (List.mem_filter.mp hur).1
  · intro hsel
    refine ⟨_, toggleSelected_deselect_result s threadId l tgt hl hn htgt hsel,
      hflipmem, ?_, hmem1, hmem2⟩
    rw [hupd, hsplit]
    simp

/-- Witness for C1 at the spec §8 scenario: selecting the candidate id 9 at
order 2 in `[user(sel,0), ai(unsel,1), ai(unsel,2)]`. -/
theorem C1_toggleSelected_cascade_witness :
    ∃ r, getA (toggleSelected c7Store demoAi2.id 1).1.thoughts 1 = some r
      ∧ flipSelected demoAi2 ∈ r
      ∧ (∀ u ∈ [demoUserThought, demoAi1, demoAi2], u.id ≠ demoAi2.id →
          ((u.author = Author.ai ∧ u.selected = false ∧ u.order < demoAi2.order) →
            u ∉ r)
          ∧ (¬(u.author = Author.ai ∧ u.selected = false ∧ u.order < demoAi2.order) →
            u ∈ r))
      ∧ (∀ u ∈ r, u = flipSelected demoAi2
          ∨ (u ∈ [demoUserThought, demoAi1, demoAi2] ∧ u.id ≠ demoAi2.id)) :=
  (C1_toggleSelected_cascade c7Store 1 [demoUserThought, demoAi1, demoAi2]
    demoAi2 (by decide) (by decide) (by decide) (by decide)).1 (by decide)

/-! ## C2: pruning keeps the five newest candidates -/

theorem contains_eq_true_iff_mem (l : List Nat) (a : Nat) :
    l.contains a = true ↔ a ∈ l := by
  simp

theorem candPred_eq_true_iff (t : Thought) :
    candPred t = true ↔ (t.author = Author.ai ∧ t.selected = false) := by
  simp [candPred]

theorem sortDesc_strict (cands : List Thought)
    (hnordc : (cands.map Thought.order).Nodup) :
    (sortDesc cands).Pairwise (fun a b : Thought => b.order < a.order) := by
  have h1 := sortDesc_sorted cands
  have hpermord : ((sortDesc cands).map Thought.order).Perm (cands.map Thought.order) :=
    (sortDesc_perm cands).map _
  have hnords : ((sortDesc cands).map Thought.order).Nodup :=
    (hpermord.nodup_iff).mpr hnordc
  have h2 : (sortDesc cands).Pairwise (fun a b => a.order ≠ b.order) :=
    (List.pairwise_map).mp hnords
  exact (h1.and h2).imp (fun h => lt_of_le_of_ne h.1 (Ne.symm h.2))

/-- C2: `pruneUnselected` keeps, among the thread's `author=ai,
selected=false` thoughts, exactly those with fewer than five strictly
higher-order candidates (the newest five), deletes all the other candidates,
never touches selected or user-authored thoughts, leaves at most five
candidates, and is a complete no-op when there are at most five candidates. -/
theorem C2_pruneUnselected (s : Store) (threadId : Nat) (l : List Thought)
    (hl : getA s.thoughts threadId = some l)
    (hnid : (l.map Thought.id).Nodup)
    (hnord : (l.map Thought.order).Nodup) :
    (∃ r, getA (pruneUnselected s threadId).1.thoughts threadId = some r
      ∧ (∀ u ∈ l, (u ∈ r ↔ (¬(u.author = Author.ai ∧ u.selected = false)
          ∨ l.countP (fun d => candPred d && decide (u.order < d.order)) < 5)))
      ∧ (∀ u ∈ r, u ∈ l)
      ∧ r.countP candPred ≤ 5)
    ∧ ((l.filter candPred).length ≤ 5 → pruneUnselected s threadId = (s, [])) := by
  have hperm : (sortDesc (l.filter candPred)).Perm (l.filter candPred) :=
    sortDesc_perm (l.filter candPred)
  have hnordc : ((l.filter candPred).map Thought.order).Nodup :=
    (((List.filter_sublist l).map Thought.order).nodup hnord)
  have hstrict := sortDesc_strict (l.filter candPred) hnordc
  have hnds : (sortDesc (l.filter candPred)).Nodup :=
    List.Nodup.of_map Thought.order ((hperm.map Thought.order).nodup_iff.mpr hnordc)
  have hcount : ∀ u : Thought,
      l.countP (fun d => candPred d && decide (u.order < d.order))
        = (sortDesc (l.filter candPred)).countP (fun d => decide (u.order < d.order)) := by
    intro u
    rw [hperm.countP_eq, List.countP_filter]
    exact List.countP_congr (fun x _ => by rw [Bool.and_comm])
  by_cases hc : ((sortDesc (l.filter candPred)).drop 5).length = 0
  · have hle : (l.filter candPred).length ≤ 5 := by
      have h1 := hperm.length_eq
      have h2 : (sortDesc (l.filter candPred)).length - 5 = 0 := by
        rw [← List.length_drop]
        exact hc
      omega
    have hres : pruneUnselected s threadId = (s, []) := by
      unfold pruneUnselected
      rw [hl]
      dsimp only
      rw [if_pos hc]
    constructor
    · refine ⟨l, by rw [hres]; exact hl, ?_, fun u hu => hu, ?_⟩
      · intro u hu
        constructor
        · intro _
          by_cases hclass : u.author = Author.ai ∧ u.selected = false
          · right
            rw [hcount u]
            have hucand : u ∈ sortDesc (l.filter candPred) :=
              hperm.mem_iff.mpr (List.mem_filter.mpr
                ⟨hu, (candPred_eq_true_iff u).mpr hclass⟩)
            have h1 := (List.length_eq_countP_add_countP
              (fun d => decide (u.order < d.order)) (sortDesc (l.filter candPred)))
            have h2 : 0 < (sortDesc (l.filter candPred)).countP
                (fun a => decide (¬ (decide (u.order < a.order) = true))) :=
              List.countP_pos_iff.mpr ⟨u, hucand, by simp⟩
            have h3 : (sortDesc (l.filter candPred)).length ≤ 5 := by
              rw [hperm.length_eq]
              exact hle
            omega
          · exact Or.inl hclass
        · intro _
          exact hu
      · rw [List.countP_eq_length_filter]
        exact hle
    · intro _
      exact hres
  · have hget : getA (pruneUnselected s threadId).1.thoughts threadId
        = some (l.filter (fun t =>
            !((((sortDesc (l.filter candPred)).drop 5).map Thought.id).contains t.id))) := by
      unfold pruneUnselected
      rw [hl]
      dsimp only
      rw [if_neg hc]
      dsimp only
      rw [getA_setA_self]
    have himposs : ¬ (l.filter candPred).length ≤ 5 := by
      intro hle5
      apply hc
      have h3 : (sortDesc (l.filter candPred)).length ≤ 5 := by
        rw [hperm.length_eq]
        exact hle5
      rw [List.drop_eq_nil_of_le h3]
      rfl
    have hmemDel : ∀ u, u ∈ (sortDesc (l.filter candPred)).drop 5
        ↔ (u ∈ sortDesc (l.filter candPred)
            ∧ ¬ u ∈ (sortDesc (l.filter candPred)).take 5) := by
      intro u
      have hnapp := hnds
      rw [← List.take_append_drop 5 (sortDesc (l.filter candPred))] at hnapp
      have hdisj := (List.nodup_append.mp hnapp).2.2
      constructor
      · intro h
        refine ⟨?_, fun htk => hdisj htk h⟩
        rw [← List.take_append_drop 5 (sortDesc (l.filter candPred))]
        exact List.mem_append.mpr (Or.inr h)
      · intro h
        obtain ⟨hs, hnt⟩ := h
        rw [← List.take_append_drop 5 (sortDesc (l.filter candPred))] at hs
        rcases List.mem_append.mp hs with h' | h'
        · exact absurd h' hnt
        · exact h'
    have hidIff : ∀ u ∈ l,
        ((((sortDesc (l.filter candPred)).drop 5).map Thought.id).contains u.id = true
          ↔ u ∈ (sortDesc (l.filter candPred)).drop 5) := by
      intro u hu
      constructor
      · intro h
        obtain ⟨y, hy, hyid⟩ := List.mem_map.mp ((contains_eq_true_iff_mem _ _).mp h)
        have hyl : y ∈ l :=
          (List.mem_filter.mp (hperm.mem_iff.mp (List.mem_of_mem_drop hy))).1
        rw [List.inj_on_of_nodup_map hnid hyl hu hyid] at hy
        exact hy
      · intro h
        exact (contains_eq_true_iff_mem _ _).mpr (List.mem_map_of_mem Thought.id h)
    have hdelIff : ∀ u ∈ l, (u ∈ (sortDesc (l.filter candPred)).drop 5
        ↔ ((u.author = Author.ai ∧ u.selected = false)
            ∧ ¬ l.countP (fun d => candPred d && decide (u.order < d.order)) < 5)) := by
      intro u hu
      rw [hmemDel u]
      constructor
      · intro h
        obtain ⟨hs, hnt⟩ := h
        have hclass : candPred u = true :=
          (List.mem_filter.mp (hperm.mem_iff.mp hs)).2
        refine ⟨(candPred_eq_true_iff u).mp hclass, ?_⟩
        rw [hcount u]
        intro hlt
        exact hnt ((mem_take_iff_countP_lt _ hstrict u hs 5).mpr hlt)
      · intro h
        obtain ⟨hclass, hge⟩ := h
        have hs : u ∈ sortDesc (l.filter candPred) :=
          hperm.mem_iff.mpr (List.mem_filter.mpr
            ⟨hu, (candPred_eq_true_iff u).mpr hclass⟩)
        refine ⟨hs, fun ht => hge ?_⟩
        rw [hcount u]
        exact (mem_take_iff_countP_lt _ hstrict u hs 5).mp ht
    have hmemr : ∀ u ∈ l, (u ∈ l.filter (fun t =>
        !((((sortDesc (l.filter candPred)).drop 5).map Thought.id).contains t.id))
          ↔ ¬ u ∈ (sortDesc (l.filter candPred)).drop 5) := by
      intro u hu
      rw [List.mem_filter]
      constructor
      · intro h hdel
        have hk := h.2
        rw [(hidIff u hu).mpr hdel] at hk
        cases hk
      · intro hnd
        refine ⟨hu, ?_⟩
        cases hcont : ((((sortDesc (l.filter candPred)).drop 5).map Thought.id).contains u.id)
        · rfl
        · exact absurd ((hidIff u hu).mp hcont) hnd
    constructor
    · refine ⟨_, hget, ?_, ?_, ?_⟩
      · intro u hu
        rw [hmemr u hu, hdelIff u hu]
        by_cases hclass : u.author = Author.ai ∧ u.selected = false
        · by_cases hcnt : l.countP (fun d => candPred d && decide (u.order < d.order)) < 5
          · simp [hclass, hcnt]
          · simp [hclass, hcnt]
        · simp [hclass]
      · intro u hur
        exact (List.mem_filter.mp hur).1
      · rw [List.countP_eq_length_filter]
        rw [List.filter_filter]
        have hcomm : l.filter (fun t => candPred t
            && !((((sortDesc (l.filter candPred)).drop 5).map Thought.id).contains t.id))
            = (l.filter candPred).filter (fun t =>
              !((((sortDesc (l.filter candPred)).drop 5).map Thought.id).contains t.id)) := by
          rw [List.filter_filter]
          exact List.filter_congr (fun x _ => by rw [Bool.and_comm])
        rw [hcomm]
        have hp2 : ((l.filter candPred).filter (fun t =>
            !((((sortDesc (l.filter candPred)).drop 5).map Thought.id).contains t.id))).length
            = ((sortDesc (l.filter candPred)).filter (fun t =>
              !((((sortDesc (l.filter candPred)).drop 5).map Thought.id).contains t.id))).length
          := ((hperm.filter _).symm).length_eq
        rw [hp2]
        have hsplitf : (sortDesc (l.filter candPred)).filter (fun t =>
            !((((sortDesc (l.filter candPred)).drop 5).map Thought.id).contains t.id))
            = ((sortDesc (l.filter candPred)).take 5).filter (fun t =>
                !((((sortDesc (l.filter candPred)).drop 5).map Thought.id).contains t.id))
              ++ ((sortDesc (l.filter candPred)).drop 5).filter (fun t =>
                !((((sortDesc (l.filter candPred)).drop 5).map Thought.id).contains t.id)) := by
          rw [← List.filter_append, List.take_append_drop]
        have hdropnil : ((sortDesc (l.filter candPred)).drop 5).filter (fun t =>
            !((((sortDesc (l.filter candPred)).drop 5).map Thought.id).contains t.id)) = [] := by
          rw [List.filter_eq_nil_iff]
          intro a ha
          have hct : ((((sortDesc (l.filter candPred)).drop 5).map Thought.id).contains a.id)
              = true :=
            (contains_eq_true_iff_mem _ _).mpr (List.mem_map_of_mem Thought.id ha)
          rw [hct]
          simp
        rw [hsplitf, hdropnil, List.append_nil]
        exact le_trans (List.length_filter_le _ _) (List.length_take_le ..)
    · intro hle5
      exact absurd hle5 himposs

/-- Witness for C2 at a store with seven candidates at orders 1..7: the two
oldest are deleted and the five newest kept. -/
theorem C2_pruneUnselected_witness :
    (∃ r, getA (pruneUnselected c2Store 1).1.thoughts 1 = some r
      ∧ (∀ u ∈ c2Thoughts, (u ∈ r ↔ (¬(u.author = Author.ai ∧ u.selected = false)
          ∨ c2Thoughts.countP (fun d => candPred d && decide (u.order < d.order)) < 5)))
      ∧ (∀ u ∈ r, u ∈ c2Thoughts)
      ∧ r.countP candPred ≤ 5)
    ∧ ((c2Thoughts.filter candPred).length ≤ 5 →
        pruneUnselected c2Store 1 = (c2Store, [])) :=
  C2_pruneUnselected c2Store 1 c2Thoughts (by decide) (by decide) (by decide)

/-! ## C5: regenerate deletes all candidates before the request -/

theorem generateBatchStart_regen (s : Store) (threadId : Nat) (thread : Thread)
    (l : List Thought)
    (hth : s.threads.find? (fun t => decide (t.id = threadId)) = some thread)
    (hl : getA s.thoughts threadId = some l)
    (hgen : s.isGenerating = false)
    (hcand : 0 < (l.filter candPred).length) :
    generateBatchStart s threadId true true =
      ({ s with
          thoughts := setA s.thoughts threadId
            (l.filter (fun t => !(((l.filter candPred).map Thought.id).contains t.id))),
          threadCounts := setA s.threadCounts threadId
            (l.filter (fun t =>
              !(((l.filter candPred).map Thought.id).contains t.id))).length,
          hasAbortController := true, isGenerating := true, error := none },
       [Effect.delThoughts ((l.filter candPred).map Thought.id),
        Effect.aiRequest ((l.filter (fun t =>
          !(((l.filter candPred).map Thought.id).contains t.id))).filter
            (fun t => t.selected)) thread.generationCount],
       some (thread, l.filter (fun t =>
         !(((l.filter candPred).map Thought.id).contains t.id)))) := by
  unfold generateBatchStart
  rw [hgen]
  simp only [Bool.false_eq_true, if_false, Bool.not_true, Bool.not_false, if_true]
  rw [hth]
  dsimp only [threadList]
  rw [hl]
  dsimp only [Option.getD]
  rw [if_pos hcand]
  rfl

/-- C5: with `regenerate=true`, every pre-existing `author=ai, selected=false`
thought of the thread is deleted — the batch delete is the first gateway call,
issued before the AI request, whose context holds exactly the selected
thoughts — and after a successful call the thread's list is the surviving
(non-candidate) thoughts followed by the fresh batch, so the only unselected
ai thoughts are the newly generated ones. -/
theorem C5_generateBatch_regenerate (s : Store) (threadId : Nat) (l : List Thought)
    (thread : Thread) (texts : List String) (tin tout : Nat)
    (newIds : Nat → Nat) (now : Nat)
    (hth : s.threads.find? (fun t => decide (t.id = threadId)) = some thread)
    (hl : getA s.thoughts threadId = some l)
    (hn : (l.map Thought.id).Nodup)
    (hgen : s.isGenerating = false)
    (hcand : 0 < (l.filter candPred).length) :
    ∃ s' fx,
      generateBatch s threadId true true (AIResult.ok texts tin tout) newIds now
        = (s', fx)
      ∧ getA s'.thoughts threadId
          = some ((l.filter (fun t => !candPred t))
              ++ newBatchThoughts threadId (maxOrder (l.filter (fun t => !candPred t)))
                  texts newIds now)
      ∧ ((l.filter (fun t => !candPred t))
          ++ newBatchThoughts threadId (maxOrder (l.filter (fun t => !candPred t)))
              texts newIds now).filter candPred
          = newBatchThoughts threadId (maxOrder (l.filter (fun t => !candPred t)))
              texts newIds now
      ∧ (∀ b ∈ newBatchThoughts threadId (maxOrder (l.filter (fun t => !candPred t)))
          texts newIds now, b.author = Author.ai ∧ b.selected = false)
      ∧ fx.take 2 = [Effect.delThoughts ((l.filter candPred).map Thought.id),
          Effect.aiRequest (l.filter (fun t => t.selected)) thread.generationCount] := by
  have hfeq : l.filter (fun t => !(((l.filter candPred).map Thought.id).contains t.id))
      = l.filter (fun t => !candPred t) := by
    refine List.filter_congr ?_
    intro x hx
    have h := contains_map_id_filter_iff l hn candPred x hx
    cases hp : candPred x
    · have hfalse : (((l.filter candPred).map Thought.id).contains x.id) = false := by
        rw [← Bool.not_eq_true]
        intro hh
        rw [h.mp hh] at hp
        cases hp
      rw [hfalse]
    · rw [h.mpr hp]
  have hsel : (l.filter (fun t => !(((l.filter candPred).map Thought.id).contains t.id))).filter
      (fun t => t.selected) = l.filter (fun t => t.selected) := by
    rw [hfeq, List.filter_filter]
    refine List.filter_congr ?_
    intro x _
    cases hx : x.selected
    · simp
    · simp [candPred, hx]
  have hbatchcand : ∀ b ∈ newBatchThoughts threadId
      (maxOrder (l.filter (fun t => !candPred t))) texts newIds now,
      b.author = Author.ai ∧ b.selected = false := by
    intro b hb
    obtain ⟨p, _, rfl⟩ := List.mem_map.mp hb
    exact ⟨rfl, rfl⟩
  have hfiltercand : ((l.filter (fun t => !candPred t))
      ++ newBatchThoughts threadId (maxOrder (l.filter (fun t => !candPred t)))
          texts newIds now).filter candPred
      = newBatchThoughts threadId (maxOrder (l.filter (fun t => !candPred t)))
          texts newIds now := by
    rw [List.filter_append]
    have h1 : (l.filter (fun t => !candPred t)).filter candPred = [] := by
      rw [List.filter_eq_nil_iff]
      intro a ha
      have := (List.mem_filter.mp ha).2
      rw [Bool.not_eq_true'] at this
      rw [this]
      simp
    have h2 : (newBatchThoughts threadId (maxOrder (l.filter (fun t => !candPred t)))
        texts newIds now).filter candPred
        = newBatchThoughts threadId (maxOrder (l.filter (fun t => !candPred t)))
            texts newIds now := by
      rw [List.filter_eq_self]
      intro a ha
      obtain ⟨hau, hsel'⟩ := hbatchcand a ha
      simp [candPred, hau, hsel']
    rw [h1, h2, List.nil_append]
  refine ⟨(generateBatch s threadId true true (AIResult.ok texts tin tout) newIds now).1,
    (generateBatch s threadId true true (AIResult.ok texts tin tout) newIds now).2,
    rfl, ?_, hfiltercand, hbatchcand, ?_⟩
  · unfold generateBatch
    rw [generateBatchStart_regen s threadId thread l hth hl hgen hcand]
    dsimp only
    unfold generateBatchFinish
    dsimp only [threadList]
    simp only [getA_setA_self, Option.getD_some]
    rw [hfeq]
  · unfold generateBatch
    rw [generateBatchStart_regen s threadId thread l hth hl hgen hcand]
    dsimp only
    unfold generateBatchFinish
    dsimp only
    rw [hsel]
    rfl

/-- Witness for C5: regenerating thread 1 of the `[user(sel,0), ai(unsel,1),
ai(unsel,2)]` store with a two-candidate response. -/
theorem C5_generateBatch_regenerate_witness :
    ∃ s' fx,
      generateBatch c7Store 1 true true (AIResult.ok ["n1", "n2"] 3 4)
          (fun i => 30 + i) 60 = (s', fx)
      ∧ getA s'.thoughts 1
          = some (([demoUserThought, demoAi1, demoAi2].filter (fun t => !candPred t))
              ++ newBatchThoughts 1
                  (maxOrder ([demoUserThought, demoAi1, demoAi2].filter
                    (fun t => !candPred t))) ["n1", "n2"] (fun i => 30 + i) 60)
      ∧ (([demoUserThought, demoAi1, demoAi2].filter (fun t => !candPred t))
          ++ newBatchThoughts 1
              (maxOrder ([demoUserThought, demoAi1, demoAi2].filter
                (fun t => !candPred t))) ["n1", "n2"] (fun i => 30 + i) 60).filter candPred
          = newBatchThoughts 1
              (maxOrder ([demoUserThought, demoAi1, demoAi2].filter
                (fun t => !candPred t))) ["n1", "n2"] (fun i => 30 + i) 60
      ∧ (∀ b ∈ newBatchThoughts 1
          (maxOrder ([demoUserThought, demoAi1, demoAi2].filter
            (fun t => !candPred t))) ["n1", "n2"] (fun i => 30 + i) 60,
          b.author = Author.ai ∧ b.selected = false)
      ∧ fx.take 2 = [Effect.delThoughts
            (([demoUserThought, demoAi1, demoAi2].filter candPred).map Thought.id),
          Effect.aiRequest ([demoUserThought, demoAi1, demoAi2].filter
            (fun t => t.selected)) demoThread.generationCount] :=
  C5_generateBatch_regenerate c7Store 1 [demoUserThought, demoAi1, demoAi2]
    demoThread ["n1", "n2"] 3 4 (fun i => 30 + i) 60
    (by decide) (by decide) (by decide) rfl (by decide)

/-! ## C6: order uniqueness and strict growth -/

theorem le_foldl_max (l : List Thought) (init : Int) :
    init ≤ l.foldl (fun m u => max m u.order) init
    ∧ ∀ t ∈ l, t.order ≤ l.foldl (fun m u => max m u.order) init := by
  induction l generalizing init with
  | nil => exact ⟨le_refl init, by simp⟩
  | cons x xs ih =>
    obtain ⟨h1, h2⟩ := ih (max init x.order)
    refine ⟨le_trans (le_max_left _ _) h1, ?_⟩
    intro t ht
    rcases List.mem_cons.mp ht with rfl | ht'
    · exact le_trans (le_max_right _ _) h1
    · exact h2 t ht'

theorem le_maxOrder (l : List Thought) (t : Thought) (ht : t ∈ l) :
    t.order ≤ maxOrder l := by
  cases l with
  | nil => cases ht
  | cons x xs =>
    rcases List.mem_cons.mp ht with rfl | ht'
    · exact (le_foldl_max xs t.order).1
    · exact (le_foldl_max xs x.order).2 t ht'

theorem addUserThought_thoughts (s : Store) (threadId : Nat) (text : String)
    (newId now : Nat) :
    (addUserThought s threadId text newId now).1.thoughts
      = setA s.thoughts threadId
          (threadList s threadId ++ [newUserThought s threadId text newId now]) := by
  unfold addUserThought
  dsimp only
  split <;> rfl

theorem addUserThought_threadList (s : Store) (threadId : Nat) (text : String)
    (newId now : Nat) :
    threadList (addUserThought s threadId text newId now).1 threadId
      = threadList s threadId ++ [newUserThought s threadId text newId now] := by
  unfold threadList
  rw [addUserThought_thoughts, getA_setA_self]
  rfl

theorem newBatch_map_order (threadId : Nat) (mo : Int) (texts : List String)
    (newIds : Nat → Nat) (now : Nat) :
    (newBatchThoughts threadId mo texts newIds now).map Thought.order
      = (List.range texts.length).map (fun i : Nat => mo + 1 + (i : Int)) := by
  unfold newBatchThoughts
  rw [List.map_map]
  rw [show ((fun t : Thought => t.order) ∘ fun p : Nat × String =>
    ({ id := newIds p.1, threadId := threadId, author := Author.ai, text := p.2,
       createdAt := now, selected := false, starred := false, edited := false,
       order := mo + 1 + p.1 } : Thought))
    = ((fun i : Nat => mo + 1 + (i : Int)) ∘ Prod.fst) from rfl]
  rw [← List.map_map, List.enum_map_fst]

theorem newBatch_orders_nodup (threadId : Nat) (mo : Int) (texts : List String)
    (newIds : Nat → Nat) (now : Nat) :
    ((newBatchThoughts threadId mo texts newIds now).map Thought.order).Nodup := by
  rw [newBatch_map_order]
  refine (List.nodup_range texts.length).map ?_
  intro a b h
  have h' : mo + 1 + (a : Int) = mo + 1 + (b : Int) := h
  omega

theorem newBatch_orders_gt (threadId : Nat) (T : List Thought) (texts : List String)
    (newIds : Nat → Nat) (now : Nat) :
    ∀ t ∈ T, ∀ b ∈ newBatchThoughts threadId (maxOrder T) texts newIds now,
      t.order < b.order := by
  intro t ht b hb
  obtain ⟨p, _, rfl⟩ := List.mem_map.mp hb
  have h1 := le_maxOrder T t ht
  show t.order < maxOrder T + 1 + (p.1 : Int)
  omega

theorem ordersNodup_append_batch (T : List Thought) (threadId : Nat)
    (texts : List String) (newIds : Nat → Nat) (now : Nat)
    (hn : (T.map Thought.order).Nodup) :
    ((T ++ newBatchThoughts threadId (maxOrder T) texts newIds now).map
      Thought.order).Nodup := by
  rw [List.map_append]
  refine hn.append (newBatch_orders_nodup ..) ?_
  intro a ha hb
  obtain ⟨t, ht, rfl⟩ := List.mem_map.mp ha
  obtain ⟨b, hbmem, hbo⟩ := List.mem_map.mp hb
  have := newBatch_orders_gt threadId T texts newIds now t ht b hbmem
  omega

theorem generateBatchStart_busy (s : Store) (threadId : Nat) (regen conf : Bool)
    (hgen : s.isGenerating = true) :
    generateBatchStart s threadId regen conf = (s, [], none) := by
  unfold generateBatchStart
  rw [hgen]
  rfl

theorem generateBatchStart_unconfigured (s : Store) (threadId : Nat) (regen : Bool)
    (hgen : s.isGenerating = false) :
    generateBatchStart s threadId regen false
      = ({ s with error := some "Please configure API key and model in settings" },
         [], none) := by
  unfold generateBatchStart
  rw [hgen]
  rfl

theorem generateBatchStart_nothread (s : Store) (threadId : Nat) (regen : Bool)
    (hgen : s.isGenerating = false)
    (hth : s.threads.find? (fun t => decide (t.id = threadId)) = none) :
    generateBatchStart s threadId regen true = (s, [], none) := by
  unfold generateBatchStart
  rw [hgen]
  simp only [Bool.false_eq_true, if_false, Bool.not_true, Bool.not_false, if_true]
  rw [hth]

theorem generateBatchStart_noregen (s : Store) (threadId : Nat) (thread : Thread)
    (hgen : s.isGenerating = false)
    (hth : s.threads.find? (fun t => decide (t.id = threadId)) = some thread) :
    generateBatchStart s threadId false true
      = ({ s with hasAbortController := true, isGenerating := true, error := none },
         [Effect.aiRequest ((threadList s threadId).filter (fun t => t.selected))
           thread.generationCount],
         some (thread, threadList s threadId)) := by
  unfold generateBatchStart
  rw [hgen]
  simp only [Bool.false_eq_true, if_false, Bool.not_true, Bool.not_false, if_true]
  rw [hth]
  rfl

theorem generateBatchStart_regen_nocands (s : Store) (threadId : Nat) (thread : Thread)
    (hgen : s.isGenerating = false)
    (hth : s.threads.find? (fun t => decide (t.id = threadId)) = some thread)
    (hlen : ¬ ((threadList s threadId).filter candPred).length > 0) :
    generateBatchStart s threadId true true
      = ({ s with hasAbortController := true, isGenerating := true, error := none },
         [Effect.aiRequest ((threadList s threadId).filter (fun t => t.selected))
           thread.generationCount],
         some (thread, threadList s threadId)) := by
  unfold generateBatchStart
  rw [hgen]
  simp only [Bool.false_eq_true, if_false, Bool.not_true, Bool.not_false, if_true]
  rw [hth]
  dsimp only
  rw [if_neg hlen]
  rfl

theorem generateBatchStart_regen_cands (s : Store) (threadId : Nat) (thread : Thread)
    (hgen : s.isGenerating = false)
    (hth : s.threads.find? (fun t => decide (t.id = threadId)) = some thread)
    (hlen : ((threadList s threadId).filter candPred).length > 0) :
    generateBatchStart s threadId true true
      = ({ s with
            thoughts := setA s.thoughts threadId ((threadList s threadId).filter
              (fun t => !((((threadList s threadId).filter candPred).map
                Thought.id).contains t.id))),
            threadCounts := setA s.threadCounts threadId
              ((threadList s threadId).filter (fun t =>
                !((((threadList s threadId).filter candPred).map
                  Thought.id).contains t.id))).length,
            hasAbortController := true, isGenerating := true, error := none },
         [Effect.delThoughts (((threadList s threadId).filter candPred).map Thought.id),
          Effect.aiRequest (((threadList s threadId).filter (fun t =>
            !((((threadList s threadId).filter candPred).map
              Thought.id).contains t.id))).filter (fun t => t.selected))
            thread.generationCount],
         some (thread, (threadList s threadId).filter (fun t =>
           !((((threadList s threadId).filter candPred).map
             Thought.id).contains t.id)))) := by
  unfold generateBatchStart
  rw [hgen]
  simp only [Bool.false_eq_true, if_false, Bool.not_true, Bool.not_false, if_true]
  rw [hth]
  dsimp only
  rw [if_pos hlen]
  rfl

theorem generateBatch_thoughts_cases (s : Store) (threadId : Nat) (regen conf : Bool)
    (ai : AIResult) (newIds : Nat → Nat) (now : Nat) :
    (generateBatch s threadId regen conf ai newIds now).1.thoughts = s.thoughts
    ∨ (∃ T texts tin tout, ai = AIResult.ok texts tin tout
        ∧ List.Sublist T (threadList s threadId)
        ∧ (generateBatch s threadId regen conf ai newIds now).1.thoughts
            = setA s.thoughts threadId
                (T ++ newBatchThoughts threadId (maxOrder T) texts newIds now))
    ∨ (∃ T, List.Sublist T (threadList s threadId)
        ∧ (generateBatch s threadId regen conf ai newIds now).1.thoughts
            = setA s.thoughts threadId T) := by
  cases hgen : s.isGenerating with
  | true =>
    left
    unfold generateBatch
    rw [generateBatchStart_busy s threadId regen conf hgen]
  | false =>
    cases conf with
    | false =>
      left
      unfold generateBatch
      rw [generateBatchStart_unconfigured s threadId regen hgen]
    | true =>
      cases hth : s.threads.find? (fun t => decide (t.id = threadId)) with
      | none =>
        left
        unfold generateBatch
        rw [generateBatchStart_nothread s threadId regen hgen hth]
      | some thread =>
        have hfin : ∀ (s2 : Store) (T : List Thought) (fx : List Effect),
            List.Sublist T (threadList s threadId) →
            threadList s2 threadId = T →
            (s2.thoughts = s.thoughts ∨ s2.thoughts = setA s.thoughts threadId T) →
            ((match generateBatchFinish s2 threadId thread T ai newIds now with
              | (s3, fx2) => (s3, fx ++ fx2)).1.thoughts = s.thoughts
            ∨ (∃ T' texts tin tout, ai = AIResult.ok texts tin tout
                ∧ List.Sublist T' (threadList s threadId)
                ∧ (match generateBatchFinish s2 threadId thread T ai newIds now with
                    | (s3, fx2) => (s3, fx ++ fx2)).1.thoughts
                  = setA s.thoughts threadId
                      (T' ++ newBatchThoughts threadId (maxOrder T') texts newIds now))
            ∨ (∃ T', List.Sublist T' (threadList s threadId)
                ∧ (match generateBatchFinish s2 threadId thread T ai newIds now with
                    | (s3, fx2) => (s3, fx ++ fx2)).1.thoughts
                  = setA s.thoughts threadId T')) := by
          intro s2 T fx hT hTeq hcase
          cases ai with
          | aborted =>
            rcases hcase with h | h
            · left
              unfold generateBatchFinish
              dsimp only
              exact h
            · refine Or.inr (Or.inr ⟨T, hT, ?_⟩)
              unfold generateBatchFinish
              dsimp only
              exact h
          | err msg =>
            rcases hcase with h | h
            · left
              unfold generateBatchFinish
              dsimp only
              exact h
            · refine Or.inr (Or.inr ⟨T, hT, ?_⟩)
              unfold generateBatchFinish
              dsimp only
              exact h
          | ok texts tin tout =>
            refine Or.inr (Or.inl ⟨T, texts, tin, tout, rfl, hT, ?_⟩)
            unfold generateBatchFinish
            dsimp only [threadList]
            dsimp only [threadList] at hTeq
            rw [hTeq]
            rcases hcase with h | h
            · rw [h]
            · rw [h, setA_setA]
        cases regen with
        | false =>
          unfold generateBatch
          rw [generateBatchStart_noregen s threadId thread hgen hth]
          dsimp only
          exact hfin
            { s with hasAbortController := true, isGenerating := true, error := none }
            (threadList s threadId)
            [Effect.aiRequest ((threadList s threadId).filter (fun t => t.selected))
              thread.generationCount]
            (List.Sublist.refl _) rfl (Or.inl rfl)
        | true =>
          by_cases hlen : ((threadList s threadId).filter candPred).length > 0
          · unfold generateBatch
            rw [generateBatchStart_regen_cands s threadId thread hgen hth hlen]
            dsimp only
            refine hfin
              { s with
                thoughts := setA s.thoughts threadId ((threadList s threadId).filter
                  (fun t => !((((threadList s threadId).filter candPred).map
                    Thought.id).contains t.id))),
                threadCounts := setA s.threadCounts threadId
                  ((threadList s threadId).filter (fun t =>
                    !((((threadList s threadId).filter candPred).map
                      Thought.id).contains t.id))).length,
                hasAbortController := true, isGenerating := true, error := none }
              ((threadList s threadId).filter (fun t =>
                !((((threadList s threadId).filter candPred).map
                  Thought.id).contains t.id)))
              [Effect.delThoughts (((threadList s threadId).filter candPred).map
                 Thought.id),
               Effect.aiRequest (((threadList s threadId).filter (fun t =>
                 !((((threadList s threadId).filter candPred).map
                   Thought.id).contains t.id))).filter (fun t => t.selected))
                 thread.generationCount]
              (List.filter_sublist _) ?_ (Or.inr rfl)
            dsimp only [threadList]
            rw [getA_setA_self]
            rfl
          · unfold generateBatch
            rw [generateBatchStart_regen_nocands s threadId thread hgen hth hlen]
            dsimp only
            exact hfin
              { s with hasAbortController := true, isGenerating := true, error := none }
              (threadList s threadId)
              [Effect.aiRequest ((threadList s threadId).filter (fun t => t.selected))
                thread.generationCount]
              (List.Sublist.refl _) rfl (Or.inl rfl)

theorem generateBatch_ok_noregen_threadList (s : Store) (threadId : Nat)
    (thread : Thread) (texts : List String) (tin tout : Nat)
    (newIds : Nat → Nat) (now : Nat)
    (hth : s.threads.find? (fun t => decide (t.id = threadId)) = some thread)
    (hgen : s.isGenerating = false) :
    threadList (generateBatch s threadId false true (AIResult.ok texts tin tout)
        newIds now).1 threadId
      = threadList s threadId
        ++ newBatchThoughts threadId (maxOrder (threadList s threadId))
            texts newIds now := by
  unfold generateBatch
  rw [generateBatchStart_noregen s threadId thread hgen hth]
  dsimp only
  unfold generateBatchFinish
  dsimp only [threadList]
  simp only [getA_setA_self, Option.getD_some]

theorem generateBatch_ok_updatedAt (s : Store) (threadId : Nat) (thread : Thread)
    (texts : List String) (tin tout : Nat) (newIds : Nat → Nat) (now : Nat)
    (hth : s.threads.find? (fun t => decide (t.id = threadId)) = some thread)
    (hgen : s.isGenerating = false) :
    (generateBatch s threadId false true (AIResult.ok texts tin tout)
        newIds now).1.threads.find? (fun t => decide (t.id = threadId))
      = some { thread with
          stats := ⟨thread.stats.tokensIn + tin, thread.stats.tokensOut + tout⟩,
          updatedAt := now } := by
  have hideq : thread.id = threadId := by
    have h := List.find?_some hth
    simpa using h
  unfold generateBatch
  rw [generateBatchStart_noregen s threadId thread hgen hth]
  dsimp only
  unfold generateBatchFinish
  dsimp only
  rw [show (fun t : Thread => decide (t.id = thread.id))
      = (fun t : Thread => decide (t.id = threadId)) from by rw [hideq]]
  exact find?_updateFirst _ _ _ _ hth (by simp [hideq])

/-- C7 (amended): `togglePinned`, `setThreadPrompt`, `setGenerationCount`,
`addUserThought` and a successful `generateBatch` refresh the parent thread's
`updatedAt` to the operation's current time, but `toggleSelected` and
`deleteThought` leave every thread record — in particular `updatedAt` —
unchanged. -/
theorem C7_amended_updatedAt (s : Store) (threadId now cnt newId thoughtId : Nat)
    (prompt : Option String) (text : String) (thread : Thread)
    (hfind : s.threads.find? (fun t => decide (t.id = threadId)) = some thread) :
    (∃ t', (togglePinned s threadId now).1.threads.find?
        (fun t => decide (t.id = threadId)) = some t' ∧ t'.updatedAt = now)
    ∧ (∃ t', (setThreadPrompt s threadId prompt now).1.threads.find?
        (fun t => decide (t.id = threadId)) = some t' ∧ t'.updatedAt = now)
    ∧ (∃ t', (setGenerationCount s threadId cnt now).1.threads.find?
        (fun t => decide (t.id = threadId)) = some t' ∧ t'.updatedAt = now)
    ∧ (∃ t', (addUserThought s threadId text newId now).1.threads.find?
        (fun t => decide (t.id = threadId)) = some t' ∧ t'.updatedAt = now)
    ∧ (∀ texts tin tout newIds genNow,
        s.isGenerating = false →
        ∃ t', (generateBatch s threadId false true (AIResult.ok texts tin tout)
            newIds genNow).1.threads.find? (fun t => decide (t.id = threadId))
          = some t' ∧ t'.updatedAt = genNow)
    ∧ (toggleSelected s thoughtId threadId).1.threads = s.threads
    ∧ (deleteThought s thoughtId threadId).1.threads = s.threads := by
  have hid : decide (thread.id = threadId) = true := by
    have h := List.find?_some hfind
    simpa using h
  refine ⟨?_, ?_, ?_, ?_, ?_, toggleSelected_threads s thoughtId threadId,
    deleteThought_threads s thoughtId threadId⟩
  · refine ⟨{ thread with pinned := !thread.pinned, updatedAt := now }, ?_, rfl⟩
    unfold togglePinned
    rw [hfind]
    exact find?_updateFirst _ _ _ _ hfind hid
  · refine ⟨{ thread with threadPrompt := prompt, updatedAt := now }, ?_, rfl⟩
    unfold setThreadPrompt
    rw [hfind]
    exact find?_updateFirst _ _ _ _ hfind hid
  · refine ⟨{ thread with generationCount := cnt, updatedAt := now }, ?_, rfl⟩
    unfold setGenerationCount
    rw [hfind]
    exact find?_updateFirst _ _ _ _ hfind hid
  · refine ⟨{ thread with updatedAt := now }, ?_, rfl⟩
    unfold addUserThought
    dsimp only
    rw [hfind]
    exact find?_updateFirst _ _ _ _ hfind hid
  · intro texts tin tout newIds genNow hgen
    exact ⟨{ thread with
        stats := ⟨thread.stats.tokensIn + tin, thread.stats.tokensOut + tout⟩,
        updatedAt := genNow },
      generateBatch_ok_updatedAt s threadId thread texts tin tout newIds genNow
        hfind hgen, rfl⟩

/-- Witness for the amended C7 at the concrete store of the counterexample. -/
theorem C7_amended_updatedAt_witness :
    (∃ t', (togglePinned c7Store 1 42).1.threads.find?
        (fun t => decide (t.id = 1)) = some t' ∧ t'.updatedAt = 42)
    ∧ (∃ t', (setThreadPrompt c7Store 1 (some "p") 42).1.threads.find?
        (fun t => decide (t.id = 1)) = some t' ∧ t'.updatedAt = 42)
    ∧ (∃ t', (setGenerationCount c7Store 1 5 42).1.threads.find?
        (fun t => decide (t.id = 1)) = some t' ∧ t'.updatedAt = 42)
    ∧ (∃ t', (addUserThought c7Store 1 "x" 77 42).1.threads.find?
        (fun t => decide (t.id = 1)) = some t' ∧ t'.updatedAt = 42)
    ∧ (∃ t', (generateBatch c7Store 1 false true (AIResult.ok ["w1"] 2 3)
          (fun i => 90 + i) 43).1.threads.find? (fun t => decide (t.id = 1))
        = some t' ∧ t'.updatedAt = 43)
    ∧ (toggleSelected c7Store 9 1).1.threads = c7Store.threads
    ∧ (deleteThought c7Store 7 1).1.threads = c7Store.threads := by
  have h := C7_amended_updatedAt c7Store 1 42 5 77 9 (some "p") "x" demoThread
    (by decide)
  exact ⟨h.1, h.2.1, h.2.2.1, h.2.2.2.1,
    h.2.2.2.2.1 ["w1"] 2 3 (fun i => 90 + i) 43 rfl,
    h.2.2.2.2.2.1, h.2.2.2.2.2.2⟩

/-- C6: over any sequence of `addUserThought` calls and `generateBatch` calls
on one thread, the `order` values stay pairwise distinct; each
`addUserThought` appends a thought with `order = max(existing) + 1` (0 on an
empty thread), strictly above every present order; and a successful
`generateBatch` appends a batch whose orders are the `n` consecutive values
after the current maximum, pairwise distinct and strictly above every present
order. -/
theorem C6_orders_unique_increasing (threadId : Nat) :
    (∀ s ops, ((threadList s threadId).map Thought.order).Nodup →
      ((threadList (applyInsOps threadId s ops) threadId).map Thought.order).Nodup)
    ∧ (∀ s text newId now,
        threadList (addUserThought s threadId text newId now).1 threadId
          = threadList s threadId ++ [newUserThought s threadId text newId now]
        ∧ (newUserThought s threadId text newId now).order
            = maxOrder (threadList s threadId) + 1
        ∧ (∀ t ∈ threadList s threadId,
            t.order < (newUserThought s threadId text newId now).order)
        ∧ (threadList s threadId = [] →
            (newUserThought s threadId text newId now).order = 0))
    ∧ (∀ s thread texts tin tout newIds now,
        s.threads.find? (fun t => decide (t.id = threadId)) = some thread →
        s.isGenerating = false →
        threadList (generateBatch s threadId false true
            (AIResult.ok texts tin tout) newIds now).1 threadId
          = threadList s threadId
            ++ newBatchThoughts threadId (maxOrder (threadList s threadId))
                texts newIds now)
    ∧ (∀ (T : List Thought) texts newIds now,
        ((newBatchThoughts threadId (maxOrder T) texts newIds now).map Thought.order
          = (List.range texts.length).map (fun i : Nat => maxOrder T + 1 + (i : Int)))
        ∧ ((newBatchThoughts threadId (maxOrder T) texts newIds now).map
            Thought.order).Nodup
        ∧ (∀ t ∈ T, ∀ b ∈ newBatchThoughts threadId (maxOrder T) texts newIds now,
            t.order < b.order)) := by
  have haddNodup : ∀ s text newId now,
      ((threadList s threadId).map Thought.order).Nodup →
      ((threadList (addUserThought s threadId text newId now).1 threadId).map
        Thought.order).Nodup := by
    intro s text newId now hn
    rw [addUserThought_threadList, List.map_append]
    refine hn.append (List.nodup_singleton _) ?_
    intro a ha hb
    obtain ⟨t, ht, rfl⟩ := List.mem_map.mp ha
    have h1 := le_maxOrder (threadList s threadId) t ht
    have h2 : t.order = (newUserThought s threadId text newId now).order := by
      simpa using hb
    have h3 : (newUserThought s threadId text newId now).order
        = maxOrder (threadList s threadId) + 1 := rfl
    omega
  refine ⟨?_, ?_, ?_, ?_⟩
  · intro s ops
    induction ops generalizing s with
    | nil => exact fun h => h
    | cons op ops ih =>
      intro hn
      refine ih (applyInsOp threadId s op) ?_
      cases op with
      | addUser text newId now => exact haddNodup s text newId now hn
      | gen regen conf ai newIds now =>
        rcases generateBatch_thoughts_cases s threadId regen conf ai newIds now with
          h | ⟨T, texts, tin, tout, _, hT, h⟩ | ⟨T, hT, h⟩
        · show ((threadList (generateBatch s threadId regen conf ai newIds now).1
              threadId).map Thought.order).Nodup
          unfold threadList
          rw [h]
          exact hn
        · show ((threadList (generateBatch s threadId regen conf ai newIds now).1
              threadId).map Thought.order).Nodup
          unfold threadList
          rw [h, getA_setA_self]
          exact ordersNodup_append_batch T threadId texts newIds now
            ((hT.map Thought.order).nodup hn)
        · show ((threadList (generateBatch s threadId regen conf ai newIds now).1
              threadId).map Thought.order).Nodup
          unfold threadList
          rw [h, getA_setA_self]
          exact (hT.map Thought.order).nodup hn
  · intro s text newId now
    refine ⟨addUserThought_threadList s threadId text newId now, rfl, ?_, ?_⟩
    · intro t ht
      have h1 := le_maxOrder (threadList s threadId) t ht
      have h3 : (newUserThought s threadId text newId now).order
          = maxOrder (threadList s threadId) + 1 := rfl
      omega
    · intro h
      show maxOrder (threadList s threadId) + 1 = 0
      rw [h]
      rfl
  · intro s thread texts tin tout newIds now hth hgen
    exact generateBatch_ok_noregen_threadList s threadId thread texts tin tout
      newIds now hth hgen
  · intro T texts newIds now
    exact ⟨newBatch_map_order threadId (maxOrder T) texts newIds now,
      newBatch_orders_nodup threadId (maxOrder T) texts newIds now,
      newBatch_orders_gt threadId T texts newIds now⟩

/-- Witness for C6: a two-operation sequence (user thought, then a successful
one-candidate generation) on the concrete store, and the concrete success
path equation. -/
theorem C6_orders_unique_increasing_witness :
    ((threadList (applyInsOps 1 c7Store
        [InsOp.addUser "x" 50 70,
         InsOp.gen false true (AIResult.ok ["a"] 1 1) (fun i => 60 + i) 71]) 1).map
      Thought.order).Nodup
    ∧ threadList (generateBatch c7Store 1 false true (AIResult.ok ["g"] 1 2)
          (fun i => 80 + i) 72).1 1
        = threadList c7Store 1
          ++ newBatchThoughts 1 (maxOrder (threadList c7Store 1)) ["g"]
              (fun i => 80 + i) 72 :=
  ⟨(C6_orders_unique_increasing 1).1 c7Store
      [InsOp.addUser "x" 50 70,
       InsOp.gen false true (AIResult.ok ["a"] 1 1) (fun i => 60 + i) 71]
      (by decide),
   (C6_orders_unique_increasing 1).2.2.1 c7Store demoThread ["g"] 1 2
      (fun i => 80 + i) 72 (by decide) rfl⟩

/-! ## C3: the selected counter never drifts -/

theorem addUserThought_selectedCounts (s : Store) (threadId : Nat) (text : String)
    (newId now : Nat) :
    (addUserThought s threadId text newId now).1.selectedCounts
      = setA s.selectedCounts threadId
          (((getA s.selectedCounts threadId).getD 0) + 1) := by
  unfold addUserThought
  dsimp only
  split <;> rfl

theorem addUserThought_inv (s : Store) (threadId : Nat) (text : String)
    (newId now : Nat) (h1 : selInv s threadId)
    (h2 : ((threadList s threadId).map Thought.id).Nodup)
    (hfresh : newId ∉ (threadList s threadId).map Thought.id) :
    selInv (addUserThought s threadId text newId now).1 threadId
    ∧ ((threadList (addUserThought s threadId text newId now).1 threadId).map
        Thought.id).Nodup := by
  constructor
  · unfold selInv
    rw [addUserThought_selectedCounts, getA_setA_self, addUserThought_threadList]
    unfold selInv at h1
    rw [List.countP_append]
    simp only [Option.getD_some]
    have hone : ([newUserThought s threadId text newId now].countP
        (fun t => t.selected)) = 1 := rfl
    rw [hone]
    omega
  · rw [addUserThought_threadList, List.map_append]
    refine h2.append (List.nodup_singleton _) ?_
    intro a ha hb
    obtain ⟨t, ht, rfl⟩ := List.mem_map.mp ha
    have hmem : t.id ∈ (threadList s threadId).map Thought.id :=
      List.mem_map_of_mem _ ht
    have hb' : t.id = newId := by simpa using hb
    rw [hb'] at hmem
    exact hfresh hmem

theorem toggleSelected_inv (s : Store) (threadId thoughtId : Nat)
    (h1 : selInv s threadId)
    (h2 : ((threadList s threadId).map Thought.id).Nodup) :
    selInv (toggleSelected s thoughtId threadId).1 threadId
    ∧ ((threadList (toggleSelected s thoughtId threadId).1 threadId).map
        Thought.id).Nodup := by
  cases hget : getA s.thoughts threadId with
  | none =>
    have hres : toggleSelected s thoughtId threadId = (s, []) := by
      unfold toggleSelected
      rw [hget]
    rw [hres]
    exact ⟨h1, h2⟩
  | some thoughts =>
    have hTL : threadList s threadId = thoughts := by
      unfold threadList
      rw [hget]
      rfl
    unfold selInv at h1
    rw [hTL] at h1 h2
    cases hfind : thoughts.find? (fun t => decide (t.id = thoughtId)) with
    | none =>
      have hres : toggleSelected s thoughtId threadId = (s, []) := by
        unfold toggleSelected
        rw [hget]
        dsimp only
        rw [hfind]
      rw [hres]
      refine ⟨?_, ?_⟩
      · unfold selInv
        rw [hTL]
        exact h1
      · rw [hTL]
        exact h2
    | some th =>
      have hmapid : (updateFirst (fun t => decide (t.id = thoughtId)) flipSelected
          thoughts).map Thought.id = thoughts.map Thought.id :=
        map_updateFirst_of_preserve (fun t => decide (t.id = thoughtId)) flipSelected
          Thought.id (fun x => rfl) thoughts
      have hnodup1 : ((updateFirst (fun t => decide (t.id = thoughtId)) flipSelected
          thoughts).map Thought.id).Nodup := by
        rw [hmapid]
        exact h2
      obtain ⟨l₁, l₂, hsplit, _, _, hupd, _⟩ := find?_decomp _ thoughts th hfind
      have hcount1 : ((updateFirst (fun t => decide (t.id = thoughtId)) flipSelected
            thoughts).countP (fun t => t.selected) : Int)
          = (thoughts.countP (fun t => t.selected) : Int)
            + (if (flipSelected th).selected then (1 : Int) else -1) := by
        rw [hupd flipSelected]
        rw [hsplit]
        rw [List.countP_append, List.countP_append, List.countP_cons, List.countP_cons]
        have hfs : (flipSelected th).selected = !th.selected := rfl
        cases hsel : th.selected with
        | true =>
          rw [hfs, hsel]
          simp
          omega
        | false =>
          rw [hfs, hsel]
          simp
          omega
      have hkeep : ∀ t ∈ updateFirst (fun t => decide (t.id = thoughtId)) flipSelected
          thoughts, (fun t : Thought => t.selected) t = true →
          (fun t : Thought => !((((updateFirst (fun t => decide (t.id = thoughtId))
            flipSelected thoughts).filter (cascadePred th.order)).map
              Thought.id).contains t.id)) t = true := by
        intro t ht hsel
        dsimp only
        have hiff := contains_map_id_filter_iff _ hnodup1 (cascadePred th.order) t ht
        have hpred : cascadePred th.order t = false := by
          unfold cascadePred
          rw [show t.selected = true from hsel]
          rfl
        cases hc : ((((updateFirst (fun t => decide (t.id = thoughtId)) flipSelected
            thoughts).filter (cascadePred th.order)).map Thought.id).contains t.id) with
        | false => rfl
        | true =>
          rw [hiff.mp hc] at hpred
          cases hpred
      unfold toggleSelected
      rw [hget]
      dsimp only
      rw [hfind]
      dsimp only
      split
      · split
        · -- cascade deletion branch
          constructor
          · unfold selInv threadList
            dsimp only
            rw [setA_setA, getA_setA_self, getA_setA_self]
            simp only [Option.getD_some]
            rw [countP_filter_of_imp _ _ _ hkeep]
            rw [hcount1]
            omega
          · unfold threadList
            dsimp only
            rw [setA_setA, getA_setA_self]
            simp only [Option.getD_some]
            exact (((List.filter_sublist _).map Thought.id).nodup hnodup1)
        · -- select branch with nothing to delete
          constructor
          · unfold selInv threadList
            dsimp only
            rw [getA_setA_self, getA_setA_self]
            simp only [Option.getD_some]
            rw [hcount1]
            omega
          · unfold threadList
            dsimp only
            rw [getA_setA_self]
            simp only [Option.getD_some]
            exact hnodup1
      · -- plain flip (deselect, or user-authored select)
        constructor
        · unfold selInv threadList
          dsimp only
          rw [getA_setA_self, getA_setA_self]
          simp only [Option.getD_some]
          rw [hcount1]
          omega
        · unfold threadList
          dsimp only
          rw [getA_setA_self]
          simp only [Option.getD_some]
          exact hnodup1

theorem deleteThought_inv (s : Store) (threadId thoughtId : Nat)
    (h1 : selInv s threadId)
    (h2 : ((threadList s threadId).map Thought.id).Nodup) :
    selInv (deleteThought s thoughtId threadId).1 threadId
    ∧ ((threadList (deleteThought s thoughtId threadId).1 threadId).map
        Thought.id).Nodup := by
  cases hget : getA s.thoughts threadId with
  | none =>
    have hres1 : (deleteThought s thoughtId threadId).1 = s := by
      unfold deleteThought
      rw [hget]
    rw [hres1]
    exact ⟨h1, h2⟩
  | some thoughts =>
    have hTL : threadList s threadId = thoughts := by
      unfold threadList
      rw [hget]
      rfl
    unfold selInv at h1
    rw [hTL] at h1 h2
    have hnodup2 : ((removeFirst (fun t => decide (t.id = thoughtId)) thoughts).map
        Thought.id).Nodup :=
      ((removeFirst_sublist _ _).map Thought.id).nodup h2
    cases hfind : thoughts.find? (fun t => decide (t.id = thoughtId)) with
    | none =>
      have hrem : removeFirst (fun t => decide (t.id = thoughtId)) thoughts
          = thoughts :=
        removeFirst_of_find?_none _ _ hfind
      unfold deleteThought
      rw [hget]
      dsimp only
      rw [hfind]
      dsimp only
      rw [hrem]
      constructor
      · unfold selInv threadList
        dsimp only
        rw [getA_setA_self]
        simp only [Option.getD_some]
        exact h1
      · unfold threadList
        dsimp only
        rw [getA_setA_self]
        simp only [Option.getD_some]
        exact h2
    | some th =>
      obtain ⟨l₁, l₂, hsplit, _, _, _, hrem⟩ := find?_decomp _ thoughts th hfind
      have hthmem : th ∈ thoughts := by
        rw [hsplit]
        exact List.mem_append.mpr (Or.inr (List.mem_cons_self _ _))
      cases hsel : th.selected with
      | false =>
        have hcount2 : ((removeFirst (fun t => decide (t.id = thoughtId))
              thoughts).countP (fun t => t.selected) : Int)
            = (thoughts.countP (fun t => t.selected) : Int) := by
          rw [hrem, hsplit, List.countP_append, List.countP_append, List.countP_cons,
            hsel]
          simp
        unfold deleteThought
        rw [hget]
        dsimp only
        rw [hfind]
        dsimp only
        rw [hsel, if_neg Bool.false_ne_true]
        constructor
        · unfold selInv threadList
          dsimp only
          rw [getA_setA_self]
          simp only [Option.getD_some]
          rw [hcount2]
          exact h1
        · unfold threadList
          dsimp only
          rw [getA_setA_self]
          simp only [Option.getD_some]
          exact hnodup2
      | true =>
        have hcount2 : (thoughts.countP (fun t => t.selected) : Int)
            = ((removeFirst (fun t => decide (t.id = thoughtId)) thoughts).countP
                (fun t => t.selected) : Int) + 1 := by
          rw [hrem, hsplit, List.countP_append, List.countP_append, List.countP_cons,
            hsel]
          simp
          omega
        have hpos : 0 < thoughts.countP (fun t => t.selected) :=
          List.countP_pos_iff.mpr ⟨th, hthmem, by rw [hsel]⟩
        unfold deleteThought
        rw [hget]
        dsimp only
        rw [hfind]
        dsimp only
        rw [hsel, if_pos rfl]
        constructor
        · unfold selInv threadList
          dsimp only
          rw [getA_setA_self, getA_setA_self]
          simp only [Option.getD_some]
          omega
        · unfold threadList
          dsimp only
          rw [getA_setA_self]
          simp only [Option.getD_some]
          exact hnodup2

/-- C3: over any sequence of completed `addUserThought`, `toggleSelected`
(with its cascade) and `deleteThought` operations on one thread — with the
drawn uuids fresh and the thread's ids initially distinct — the cached
`selectedCounts` entry always equals the number of selected thoughts in the
in-memory list, recomputed from scratch. -/
theorem C3_selectedCounts_no_drift (threadId : Nat) (s : Store) (ops : List SeqOp)
    (h1 : selInv s threadId)
    (h2 : ((threadList s threadId).map Thought.id).Nodup)
    (hfresh : freshSeq threadId s ops = true) :
    selInv (applySeqOps threadId s ops) threadId := by
  suffices h : ∀ ops s, selInv s threadId →
      ((threadList s threadId).map Thought.id).Nodup →
      freshSeq threadId s ops = true →
      selInv (applySeqOps threadId s ops) threadId
        ∧ ((threadList (applySeqOps threadId s ops) threadId).map Thought.id).Nodup by
    exact (h ops s h1 h2 hfresh).1
  intro ops
  induction ops with
  | nil => exact fun s ha hb _ => ⟨ha, hb⟩
  | cons op ops ih =>
    intro s ha hb hf
    cases op with
    | addUser text newId now =>
      simp only [freshSeq, Bool.and_eq_true] at hf
      have hfr : newId ∉ (threadList s threadId).map Thought.id := by
        have hc := hf.1
        rw [Bool.not_eq_true'] at hc
        intro hmem
        rw [(contains_eq_true_iff_mem _ _).mpr hmem] at hc
        cases hc
      have hstep := addUserThought_inv s threadId text newId now ha hb hfr
      exact ih _ hstep.1 hstep.2 hf.2
    | toggleSel thoughtId =>
      simp only [freshSeq, Bool.true_and] at hf
      have hstep := toggleSelected_inv s threadId thoughtId ha hb
      exact ih _ hstep.1 hstep.2 hf
    | delThought thoughtId =>
      simp only [freshSeq, Bool.true_and] at hf
      have hstep := deleteThought_inv s threadId thoughtId ha hb
      exact ih _ hstep.1 hstep.2 hf

/-- Witness for C3: a five-operation sequence on the spec §8 store — add a
user thought, select candidate 9 (cascading away candidate 8), deselect it
again, delete the user thought 7, and toggle a missing id. -/
theorem C3_selectedCounts_no_drift_witness :
    selInv (applySeqOps 1 c7Store
      [SeqOp.addUser "w" 40 80, SeqOp.toggleSel 9, SeqOp.toggleSel 9,
       SeqOp.delThought 7, SeqOp.toggleSel 999]) 1 :=
  C3_selectedCounts_no_drift 1 c7Store
    [SeqOp.addUser "w" 40 80, SeqOp.toggleSel 9, SeqOp.toggleSel 9,
     SeqOp.delThought 7, SeqOp.toggleSel 999]
    (by unfold selInv; decide) (by decide) (by decide)

/-! ## C4: cancellation does not abort the underlying request -/

/-- C4 (code bug): `cancelGeneration` aborts `Store.abortController`, but the
`signal` property the store passes to `generateThoughts` is not part of
`GenerateOptions` (services/ai.ts, lines 72–80) and is never forwarded to any
`fetch` call, so the in-flight request cannot be aborted.  Concretely: a
generation is started on the one-thought store and a request is issued;
`cancelGeneration` clears `isGenerating` and drops the controller; the
request nevertheless resolves with one candidate, and the resumed coroutine
appends it to the thread (one new unselected ai thought) and persists it via
`saveThoughts` — contradicting the claim that cancellation aborts the request
and that zero new thoughts are appended or persisted.  The error field stays
`none`, as the claim says. -/
theorem C4_cancel_does_not_abort :
    c4Start.2.2.isSome = true
    ∧ c4AfterCancel.isGenerating = false
    ∧ c4AfterCancel.hasAbortController = false
    ∧ (threadList c4Final.1 1).length = (threadList c10Store 1).length + 1
    ∧ (threadList c4Final.1 1).countP candPred = 1
    ∧ Effect.saveThoughts
        [{ id := 100, threadId := 1, author := Author.ai, text := "resolved",
           createdAt := 99, selected := false, starred := false, edited := false,
           order := 1 }] ∈ c4Final.2
    ∧ c4Final.1.error = none := by decide

end AIThreads
